import Mathlib

/-!
# civo-cluster: a Dagger module wrapping the Civo CLI

Shallow embedding of `civo-cluster/main.go`.

* A Dagger `Container` is a lazy query: every builder method (`From`, `WithExec`,
  `WithEntrypoint`, `WithEnvVariable`, `WithSecretVariable`) returns a new container whose
  query is the receiver's query followed by one more selection.  It is embedded as the list
  of selections made so far, oldest first.
* Everything the module reads from outside is collected in `Runtime`: the answer of
  `dag.DefaultPlatform`, the clock reading of `time.Now()` at the call, and the engine's
  evaluation of `Stdout` on a finished query.
* The call time is the wall clock of that reading, seconds and nanoseconds.  Its text,
  `Time.String`, is embedded after the Go standard library (`Time.String`, `Time.Format`,
  `absDate`, `absClock`, `appendInt`, `appendNano`).  Integers are unbounded: Go counts days
  from a year far enough back to stay unsigned, here they are counted from year 1 with floor
  division, which gives the same date for every instant Go represents.
* A Go panic is an `Except.error` carrying a `Panic`; a Go `(string, error)` result is a pair
  `String × Option String`, the second component being `none` for a nil error.
* Go strings are Lean strings; the only string library function used, `strings.SplitN`, is
  embedded after the Go standard library (`strings.genSplit`).
* The `ctx` argument carries nothing the module reads and is left out; the receiver
  `*CivoCluster` is an empty struct and is left out as well.
* Each operation of `main.go` is one `return` of a builder chain ending in `.Stdout(ctx)`.
  The chain without its last call is named `X.container`, and `X` is `Stdout` of it, so
  that statements can speak of the query an operation submits.
* The defaults of the optional parameters of `ClusterCreate` are the `+default` pragmas in
  its parameter list; Dagger applies them when a call leaves the argument out, before the Go
  function runs.  `ClusterCreate.call` is that call path.
-/

namespace CivoCluster

/-! ## Go runtime pieces -/

/-- A Go panic: either `panic(err)` with an error value, or the runtime error raised by an
index expression on a slice that is too short. -/
inductive Panic where
  | error (err : String)
  | indexOutOfRange (index length : Nat)
deriving DecidableEq, Repr

namespace Go

/-- Go `strings.Index` on character lists: position of the first occurrence of `sep` in `s`,
`none` standing for `-1`. -/
def indexOf (sep : List Char) : List Char → Option Nat
  | [] => if sep.isEmpty then some 0 else none
  | c :: t => if sep.isPrefixOf (c :: t) then some 0 else (indexOf sep t).map (· + 1)

/-- Go `strings.Count` for a non-empty separator: the number of non-overlapping occurrences.
The first argument bounds the number of loop iterations. -/
def countLoop (sep : List Char) : Nat → List Char → Nat
  | 0, _ => 0
  | fuel + 1, s =>
    match indexOf sep s with
    | none => 0
    | some i => countLoop sep fuel (s.drop (i + sep.length)) + 1

/-- Go `strings.Count`. -/
def Count (s sep : String) : Nat :=
  if sep.data.isEmpty then s.length + 1 else countLoop sep.data (s.length + 1) s.data

/-- Go `strings.explode`: split `s` into at most `n` pieces of one character each, the last
piece keeping whatever is left. -/
def explode (s : List Char) (n : Int) : List (List Char) :=
  let l := s.length
  let n : Nat := if n < 0 ∨ n > l then l else n.toNat
  if n = 0 then [] else (s.take (n - 1)).map (fun c => [c]) ++ [s.drop (n - 1)]

/-- The loop of Go `strings.genSplit` (with `sepSave = 0`): cut at the first `k` occurrences
of `sep` at most, the last element being the unsplit remainder. -/
def genSplitLoop (sep : List Char) : Nat → List Char → List (List Char)
  | 0, s => [s]
  | k + 1, s =>
    match indexOf sep s with
    | none => [s]
    | some m => s.take m :: genSplitLoop sep k (s.drop (m + sep.length))

/-- Go `strings.SplitN(s, sep, n)`. -/
def SplitN (s sep : String) (n : Int) : List String :=
  if n = 0 then []
  else if sep.data.isEmpty then (explode s.data n).map String.mk
  else
    let n1 : Nat := if n < 0 then Count s sep + 1 else n.toNat
    let n2 : Nat := if n1 > s.utf8ByteSize + 1 then s.utf8ByteSize + 1 else n1
    (genSplitLoop sep.data (n2 - 1) s.data).map String.mk

/-- Go index expression `a[i]` on a slice of strings: panics when `i` is out of range. -/
def index (a : List String) (i : Nat) : Except Panic String :=
  match a.get? i with
  | some x => .ok x
  | none => .error (.indexOutOfRange i a.length)

/-! ### The text of a clock reading, `time.Now().String()` -/

/-- The byte `'0' + d` of a decimal digit. -/
def digitChar (d : Nat) : Char := Char.ofNat (48 + d)

/-- The digit loop of Go `time.appendInt`: the decimal digits of `u` put in front of `acc`.
The first argument bounds the number of loop iterations. -/
def utoa : Nat → Nat → List Char → List Char
  | 0, u, acc => digitChar u :: acc
  | fuel + 1, u, acc =>
    if u < 10 then digitChar u :: acc else utoa fuel (u / 10) (digitChar (u % 10) :: acc)

/-- The decimal digits of `u`, without padding. -/
def decimal (u : Nat) : List Char := utoa u u []

/-- Go `time.appendInt(b, x, width)`: a minus sign for a negative `x`, then the decimal digits
of its absolute value, padded with zeros on the left to `width` digits. -/
def appendInt (x : Int) (width : Nat) : List Char :=
  let digits := decimal x.natAbs
  let padded := List.replicate (width - digits.length) '0' ++ digits
  if x < 0 then '-' :: padded else padded

/-- Go `time.appendNano` for the layout element `.999999999`: nothing for zero nanoseconds,
otherwise the dot and nine digits with the trailing zeros cut. -/
def appendNano (nanosec : Nat) : List Char :=
  if nanosec = 0 then []
  else '.' :: ((appendInt nanosec 9).reverse.dropWhile (fun c => c = '0')).reverse

/-- Go `time.isLeap`. -/
def isLeap (year : Int) : Bool :=
  year % 4 = 0 ∧ (year % 100 ≠ 0 ∨ year % 400 = 0)

/-- Go `time.daysBefore`: the number of days in a non-leap year before month `m + 1`. -/
def daysBefore (m : Int) : Int :=
  [0, 31, 59, 90, 120, 151, 181, 212, 243, 273, 304, 334, 365].getD m.toNat 0

/-- The first half of Go `time.absDate`: the year and the day within the year of the day
numbered `d`, day 0 being 1 January of year 1. -/
def yearDay (d : Int) : Int × Int :=
  let n400 := d / 146097
  let d1 := d - 146097 * n400
  let n100 := d1 / 36524
  let n100 := n100 - n100 / 4
  let d2 := d1 - 36524 * n100
  let n4 := d2 / 1461
  let d3 := d2 - 1461 * n4
  let n1 := d3 / 365
  let n1 := n1 - n1 / 4
  (1 + 400 * n400 + 100 * n100 + 4 * n4 + n1, d3 - 365 * n1)

/-- The second half of Go `time.absDate`: month and day of the month of the day `yday` of a
year, January and the first of a month being 1. -/
def monthDay (leap : Bool) (yday : Int) : Int × Int :=
  if leap ∧ yday = 31 + 29 - 1 then (2, 29)
  else
    let day := if leap ∧ yday > 31 + 29 - 1 then yday - 1 else yday
    let month := day / 31
    let fin := daysBefore (month + 1)
    if day ≥ fin then (month + 2, day - fin + 1)
    else (month + 1, day - daysBefore month + 1)

/-- Seconds between 1 January of year 1 and the Unix epoch, Go `time.unixToInternal`. -/
def unixToInternal : Int := (1969 * 365 + 1969 / 4 - 1969 / 100 + 1969 / 400) * 86400

/-- A reading of the clock as `time.Now()` returns it: the wall clock in seconds since the
Unix epoch and nanoseconds within the second, the monotonic reading in nanoseconds since
the start of the process when the value carries one, and the zone in effect in the local
location at that instant. -/
structure Time where
  sec : Int
  nsec : Fin 1000000000
  mono : Option Int
  zoneName : String
  zoneOffset : Int
deriving DecidableEq

/-- The local clock in seconds since 1 January of year 1, 00:00:00. -/
def Time.abs (t : Time) : Int := t.sec + t.zoneOffset + unixToInternal

/-- Go `Time.Format` with the layout `2006-01-02 15:04:05.999999999 -0700 MST`: the date
and the clock of the local time, the nanoseconds, the zone offset in hours and minutes, and
the zone abbreviation, or the offset once more for a zone without one. -/
def Time.format (t : Time) : List Char :=
  let abs := t.abs
  let date := yearDay (abs / 86400)
  let year := date.1
  let md := monthDay (isLeap year) date.2
  let month := md.1
  let day := md.2
  let sec := abs % 86400
  let hour := sec / 3600
  let sec := sec - hour * 3600
  let min := sec / 60
  let sec := sec - min * 60
  let zone := Int.tdiv t.zoneOffset 60
  let zoneText :=
    (if zone < 0 then '-' else '+') :: (appendInt (zone.natAbs / 60 : Nat) 2
      ++ appendInt (zone.natAbs % 60 : Nat) 2)
  appendInt year 4 ++ '-' :: appendInt month 2 ++ '-' :: appendInt day 2
    ++ ' ' :: appendInt hour 2 ++ ':' :: appendInt min 2 ++ ':' :: appendInt sec 2
    ++ appendNano t.nsec
    ++ ' ' :: zoneText
    ++ ' ' :: (if t.zoneName ≠ "" then t.zoneName.data else zoneText)

/-- The monotonic reading as Go `Time.String` appends it. -/
def Time.monotonic (ext : Int) : List Char :=
  let m2 := ext.natAbs
  let m1 := m2 / 1000000000
  let m2 := m2 % 1000000000
  let m0 := m1 / 1000000000
  let m1 := m1 % 1000000000
  " m=".data ++ (if ext < 0 then '-' else '+')
    :: ((if m0 ≠ 0 then appendInt m0 0 ++ appendInt m1 9 else appendInt m1 0)
      ++ '.' :: appendInt m2 9)

/-- Go `Time.String`. -/
def Time.String (t : Time) : String :=
  ⟨t.format ++ (match t.mono with | some ext => Time.monotonic ext | none => [])⟩

/-- The number a string of decimal digits stands for (used to read a field back). -/
def value (l : List Char) : Nat := l.foldl (fun a c => 10 * a + (c.toNat - 48)) 0

/-- Every character of the list is a decimal digit. -/
def AllDigits (l : List Char) : Prop := ∀ c ∈ l, c.isDigit = true

/-- The day of the year of a date, the inverse of `monthDay`. -/
def ydayOf (leap : Bool) (month day : Int) : Int :=
  daysBefore (month - 1) + day - 1 + (if leap ∧ month > 2 then 1 else 0)

end Go

/-! ## Dagger objects -/

/-- A Dagger secret handle (`*Secret`); a nil pointer is `none : Option Secret`. -/
structure Secret where
  id : String
deriving DecidableEq, Repr

/-- One selection of a container query. -/
inductive Step where
  | From (address : String)
  | WithExec (args : List String)
  | WithEntrypoint (args : List String)
  | WithEnvVariable (name value : String)
  | WithSecretVariable (name : String) (secret : Secret)
deriving DecidableEq, Repr

/-- A Dagger container: the selections of its query, oldest first. -/
structure Container where
  steps : List Step
deriving DecidableEq, Repr

namespace Container

/-- The empty query, `dag.Container()`. -/
def new : Container := ⟨[]⟩

/-- Builder `Container.From`. -/
def From (c : Container) (address : String) : Container := ⟨c.steps ++ [Step.From address]⟩

/-- Builder `Container.WithExec`. -/
def WithExec (c : Container) (args : List String) : Container :=
  ⟨c.steps ++ [Step.WithExec args]⟩

/-- Builder `Container.WithEntrypoint`. -/
def WithEntrypoint (c : Container) (args : List String) : Container :=
  ⟨c.steps ++ [Step.WithEntrypoint args]⟩

/-- Builder `Container.WithEnvVariable`. -/
def WithEnvVariable (c : Container) (name value : String) : Container :=
  ⟨c.steps ++ [Step.WithEnvVariable name value]⟩

/-- Builder `Container.WithSecretVariable`. -/
def WithSecretVariable (c : Container) (name : String) (secret : Secret) : Container :=
  ⟨c.steps ++ [Step.WithSecretVariable name secret]⟩

/-- The argument vectors of the exec selections of a step list, in order. -/
def execsOf : List Step → List (List String)
  | [] => []
  | Step.WithExec args :: rest => args :: execsOf rest
  | _ :: rest => execsOf rest

/-- The argument vectors the container executes, in order. -/
def execs (c : Container) : List (List String) := execsOf c.steps

/-- The argument vector of the last exec selection: the command whose output `Stdout`
reports. -/
def lastExec (c : Container) : Option (List String) := c.execs.getLast?

/-- The secret variables of a step list, in order. -/
def secretsOf : List Step → List (String × Secret)
  | [] => []
  | Step.WithSecretVariable name secret :: rest => (name, secret) :: secretsOf rest
  | _ :: rest => secretsOf rest

/-- The secret variables attached to the container. -/
def secretVariables (c : Container) : List (String × Secret) := secretsOf c.steps

/-- The plain environment variables set by a step list, in order. -/
def envOf : List Step → List (String × String)
  | [] => []
  | Step.WithEnvVariable name value :: rest => (name, value) :: envOf rest
  | _ :: rest => envOf rest

/-- The values given to the plain environment variable `name`, in the order they are set. -/
def envValues (name : String) (c : Container) : List String :=
  ((envOf c.steps).filter (fun kv => kv.1 = name)).map Prod.snd

/-- The value of the plain environment variable `name` in the container, if it is set. -/
def envVariable (name : String) (c : Container) : Option String :=
  (c.envValues name).getLast?

/-- The container with every secret variable selection removed. -/
def withoutSecrets (c : Container) : Container :=
  ⟨c.steps.filter (fun s => match s with | Step.WithSecretVariable _ _ => false | _ => true)⟩

end Container

/-- What the module observes of its surroundings during one call. -/
structure Runtime where
  /-- The answer of `dag.DefaultPlatform(ctx)`: an error, or the platform string. -/
  DefaultPlatform : Except String String
  /-- The clock reading `time.Now()` returns at the call. -/
  Now : Go.Time
  /-- The engine's evaluation of `Container.Stdout(ctx)`: the text and the error. -/
  Stdout : Container → String × Option String

/-! ## The module -/

/-- The pinned Civo CLI version. -/
def civoVersion : String := "1.0.75"

/-- The private function building the container with the Civo CLI.  It aborts with
`panic(err)` when platform detection fails, and with the runtime error of the index
expressions `platformSplit[0]`, `platformSplit[1]` when the split is too short; the builder
calls before them only extend a query, so nothing is observable of them after an abort. -/
def civoContainer (dag : Runtime) (apiToken : Option Secret) : Except Panic Container :=
  match dag.DefaultPlatform with
  | .error err => .error (Panic.error err)
  | .ok platform => do
    let platformSplit := Go.SplitN platform "/" 2
    let container := Container.new
      |>.From "alpine:latest"
      |>.WithExec ["apk", "add", "curl"]
      |>.WithExec ["curl", "-L", "-o", "/tmp/civo.tar.gz",
          "https://github.com/civo/cli/releases/download/v" ++ civoVersion ++ "/civo-"
            ++ civoVersion ++ "-" ++ (← Go.index platformSplit 0) ++ "-"
            ++ (← Go.index platformSplit 1) ++ ".tar.gz"]
      |>.WithExec ["tar", "-xvf", "/tmp/civo.tar.gz", "-C", "/tmp"]
      |>.WithExec ["mv", "/tmp/civo", "/usr/local/bin/civo"]
      |>.WithExec ["chmod", "+x", "/usr/local/bin/civo"]
      |>.WithEntrypoint ["civo"]
    match apiToken with
    | some token => pure (container.WithSecretVariable "CIVO_TOKEN" token)
    | none => pure container

/-- The container `ClusterList` asks the output of. -/
def ClusterList.container (dag : Runtime) (apiToken : Option Secret) (region : String) :
    Except Panic Container := do
  let c ← civoContainer dag apiToken
  pure (c
    |>.WithEnvVariable "CACHE_BUSTER" dag.Now.String
    |>.WithExec ["k3s", "list", "--region", region])

/-- Operation `ClusterList`: the pair `Stdout` returns, handed back as is. -/
def ClusterList (dag : Runtime) (apiToken : Option Secret) (region : String) :
    Except Panic (String × Option String) := do
  let c ← ClusterList.container dag apiToken region
  pure (dag.Stdout c)

/-- The container `ClusterShow` asks the output of. -/
def ClusterShow.container (dag : Runtime) (apiToken : Option Secret) (region name : String) :
    Except Panic Container := do
  let c ← civoContainer dag apiToken
  pure (c
    |>.WithEnvVariable "CACHE_BUSTER" dag.Now.String
    |>.WithExec ["k3s", "get", name, "--region", region])

/-- Operation `ClusterShow`. -/
def ClusterShow (dag : Runtime) (apiToken : Option Secret) (region name : String) :
    Except Panic (String × Option String) := do
  let c ← ClusterShow.container dag apiToken region name
  pure (dag.Stdout c)

/-- The container `ClusterCreate` asks the output of. -/
def ClusterCreate.container (dag : Runtime) (apiToken : Option Secret)
    (region name nodeCount nodeSize version : String) : Except Panic Container := do
  let c ← civoContainer dag apiToken
  pure (c
    |>.WithEnvVariable "CACHE_BUSTER" dag.Now.String
    |>.WithExec ["k3s", "create", name, "--region", region, "--nodes", nodeCount,
        "--size", nodeSize, "--version", version, "--wait"])

/-- Operation `ClusterCreate`. -/
def ClusterCreate (dag : Runtime) (apiToken : Option Secret)
    (region name nodeCount nodeSize version : String) :
    Except Panic (String × Option String) := do
  let c ← ClusterCreate.container dag apiToken region name nodeCount nodeSize version
  pure (dag.Stdout c)

/-- The container `Version` asks the output of. -/
def Version.container (dag : Runtime) : Except Panic Container := do
  let c ← civoContainer dag none
  pure (c |>.WithExec ["version"])

/-- Operation `Version`. -/
def Version (dag : Runtime) : Except Panic (String × Option String) := do
  let c ← Version.container dag
  pure (dag.Stdout c)

/-! ## Dagger call dispatch -/

/-- The value `+default="3"` declared for the optional parameter `nodeCount`. -/
def ClusterCreate.nodeCountDefault : String := "3"

/-- The value `+default="g4s.kube.medium"` declared for the optional parameter `nodeSize`. -/
def ClusterCreate.nodeSizeDefault : String := "g4s.kube.medium"

/-- The value `+default="latest"` declared for the optional parameter `version`. -/
def ClusterCreate.versionDefault : String := "latest"

/-- The container of `dagger call cluster-create`: an argument declared `+optional` that the
caller leaves out (`none`) reaches the Go function as its declared `+default`. -/
def ClusterCreate.call.container (dag : Runtime) (apiToken : Option Secret)
    (region name : String) (nodeCount nodeSize version : Option String) :
    Except Panic Container :=
  ClusterCreate.container dag apiToken region name
    (nodeCount.getD ClusterCreate.nodeCountDefault)
    (nodeSize.getD ClusterCreate.nodeSizeDefault)
    (version.getD ClusterCreate.versionDefault)

/-- The result of `dagger call cluster-create`, defaults filled in as above. -/
def ClusterCreate.call (dag : Runtime) (apiToken : Option Secret)
    (region name : String) (nodeCount nodeSize version : Option String) :
    Except Panic (String × Option String) :=
  ClusterCreate dag apiToken region name
    (nodeCount.getD ClusterCreate.nodeCountDefault)
    (nodeSize.getD ClusterCreate.nodeSizeDefault)
    (version.getD ClusterCreate.versionDefault)

/-! ## Specification-side vocabulary -/

/-- The release archive address, as the specification words it: version 1.0.75 in the
release tag and in the file name, then the operating system and the architecture. -/
def releaseURL (os arch : String) : String :=
  "https://github.com/civo/cli/releases/download/v1.0.75/civo-1.0.75-" ++ os ++ "-" ++ arch
    ++ ".tar.gz"

/-- The seven set-up selections, as the specification lists them. -/
def setupSteps (os arch : String) : List Step :=
  [Step.From "alpine:latest",
   Step.WithExec ["apk", "add", "curl"],
   Step.WithExec ["curl", "-L", "-o", "/tmp/civo.tar.gz", releaseURL os arch],
   Step.WithExec ["tar", "-xvf", "/tmp/civo.tar.gz", "-C", "/tmp"],
   Step.WithExec ["mv", "/tmp/civo", "/usr/local/bin/civo"],
   Step.WithExec ["chmod", "+x", "/usr/local/bin/civo"],
   Step.WithEntrypoint ["civo"]]

/-- The selection attaching a credential, when there is one. -/
def credentialSteps : Option Secret → List Step
  | some token => [Step.WithSecretVariable "CIVO_TOKEN" token]
  | none => []

/-! ## Concrete runtimes used to exercise the theorems -/

/-- An engine that lets `civo version` succeed and every other command fail. -/
def sampleStdout (c : Container) : String × Option String :=
  if c.lastExec = some ["version"] then ("Civo CLI v1.0.75\n", none)
  else ("", some "exit code: 1")

/-- A host on linux/amd64. -/
def linuxAmd64 : Runtime :=
  ⟨.ok "linux/amd64", ⟨1709287200, 1, some 20000001, "UTC", 0⟩, sampleStdout⟩

/-- The same host one second later. -/
def linuxAmd64Later : Runtime :=
  ⟨.ok "linux/amd64", ⟨1709287201, 1, some 1020000001, "UTC", 0⟩, sampleStdout⟩

/-- A host whose platform carries a variant after the architecture. -/
def linuxArm64v8 : Runtime :=
  ⟨.ok "linux/arm64/v8", ⟨1709287200, 1, some 20000001, "UTC", 0⟩, sampleStdout⟩

/-- A host whose platform string has no separator. -/
def unknownPlatform : Runtime :=
  ⟨.ok "unknown", ⟨1709287200, 1, some 20000001, "UTC", 0⟩, sampleStdout⟩

/-- A host at 10:00:30 UTC whose local zone is half a minute behind UTC. -/
def halfMinuteBehind : Runtime :=
  ⟨.ok "linux/amd64", ⟨1709287230, 1, some 20000001, "LMT", -30⟩, sampleStdout⟩

/-- A host at 10:00:00 UTC whose local zone, of the same name, is at UTC. -/
def onTheMinute : Runtime :=
  ⟨.ok "linux/amd64", ⟨1709287200, 1, some 20000001, "LMT", 0⟩, sampleStdout⟩

/-- A credential. -/
def sampleToken : Secret := ⟨"civo-api-token"⟩

/-- The environment built on linux/amd64 without a credential. -/
def amd64Environment : Container := ⟨setupSteps "linux" "amd64"⟩

/-- The environment built on linux/amd64 with the sample credential. -/
def amd64EnvironmentWithToken : Container :=
  ⟨setupSteps "linux" "amd64" ++ [Step.WithSecretVariable "CIVO_TOKEN" sampleToken]⟩

/-! ## Facts about splitting on the first separator -/

theorem Go.indexOf_slash_none (a : List Char) (h : '/' ∉ a) : Go.indexOf ['/'] a = none := by
  induction a with
  | nil => rfl
  | cons c t ih =>
    have hc : ¬ ('/' = c) := fun e => h (List.mem_cons.mpr (Or.inl e))
    have ht : '/' ∉ t := fun e => h (List.mem_cons.mpr (Or.inr e))
    simp [Go.indexOf, List.isPrefixOf, hc, ih ht]

theorem Go.indexOf_slash_append (a b : List Char) (h : '/' ∉ a) :
    Go.indexOf ['/'] (a ++ '/' :: b) = some a.length := by
  induction a with
  | nil => simp [Go.indexOf, List.isPrefixOf]
  | cons c t ih =>
    have hc : ¬ ('/' = c) := fun e => h (List.mem_cons.mpr (Or.inl e))
    have ht : '/' ∉ t := fun e => h (List.mem_cons.mpr (Or.inr e))
    simp [Go.indexOf, List.isPrefixOf, hc, ih ht]

theorem Go.utf8ByteSize_pos (s : String) (h : s.data ≠ []) : 0 < s.utf8ByteSize := by
  obtain ⟨l⟩ := s
  cases l with
  | nil => exact absurd rfl h
  | cons c t =>
    have := Char.utf8Size_pos c
    simp only [String.utf8ByteSize, String.utf8ByteSize.go]
    omega

theorem Go.SplitN_slash_of_not_mem (p : String) (h : '/' ∉ p.data) :
    Go.SplitN p "/" 2 = [p] := by
  have hl : ∀ k, Go.genSplitLoop ['/'] k p.data = [p.data] := by
    intro k
    cases k with
    | zero => rfl
    | succ k => simp [Go.genSplitLoop, Go.indexOf_slash_none p.data h]
  have hsep : ("/" : String).data = ['/'] := rfl
  simp [Go.SplitN, hsep, hl]

theorem Go.SplitN_slash_append (os arch : String) (h : '/' ∉ os.data) :
    Go.SplitN (os ++ "/" ++ arch) "/" 2 = [os, arch] := by
  have hsep : ("/" : String).data = ['/'] := rfl
  have hd : (os ++ "/" ++ arch).data = os.data ++ '/' :: arch.data := by
    simp [String.data_append, hsep]
  have hpos : 0 < (os ++ "/" ++ arch).utf8ByteSize :=
    Go.utf8ByteSize_pos _ (by rw [hd]; simp)
  have hn : ¬ (2 > (os ++ "/" ++ arch).utf8ByteSize + 1) := by omega
  have hdrop : List.drop (os.data.length + 1) (os.data ++ '/' :: arch.data) = arch.data := by
    have e : os.data ++ '/' :: arch.data = (os.data ++ ['/']) ++ arch.data := by simp
    rw [e]
    exact List.drop_left' (by simp)
  have hl : Go.genSplitLoop ['/'] 1 (os.data ++ '/' :: arch.data) = [os.data, arch.data] := by
    simp only [Go.genSplitLoop, Go.indexOf_slash_append os.data arch.data h, List.length_singleton,
      hdrop, List.take_left']
  simp only [Go.SplitN, hsep, hd]
  simp [hn, hl]

theorem Go.exists_split_of_mem (p : String) (h : '/' ∈ p.data) :
    ∃ os arch : String, p = os ++ "/" ++ arch ∧ '/' ∉ os.data := by
  obtain ⟨l⟩ := p
  induction l with
  | nil => simp at h
  | cons c t ih =>
    by_cases hc : c = '/'
    · refine ⟨"", ⟨t⟩, ?_, by simp⟩
      subst hc
      apply String.ext
      simp [String.data_append]
    · have ht : '/' ∈ t := by
        rcases List.mem_cons.mp h with e | e
        · exact absurd e.symm hc
        · exact e
      obtain ⟨os, arch, he, hno⟩ := ih ht
      refine ⟨⟨c :: os.data⟩, arch, ?_, ?_⟩
      · apply String.ext
        have := congrArg String.data he
        simp [String.data_append] at this ⊢
        exact this
      · simp
        exact ⟨fun e => hc e.symm, hno⟩

/-! ## Facts about the text of a clock reading -/

namespace Go

theorem digitChar_isDigit (d : Nat) (h : d < 10) : (digitChar d).isDigit = true := by
  revert d
  decide

theorem digitChar_toNat (d : Nat) (h : d < 10) : (digitChar d).toNat - 48 = d := by
  revert d
  decide

theorem value_append_singleton (l : List Char) (c : Char) :
    value (l ++ [c]) = 10 * value l + (c.toNat - 48) := by
  simp [value, List.foldl_append]

theorem allDigits_append {a b : List Char} (ha : AllDigits a) (hb : AllDigits b) :
    AllDigits (a ++ b) := by
  intro c hc
  rcases List.mem_append.mp hc with h | h
  · exact ha c h
  · exact hb c h

theorem allDigits_replicate_zero (k : Nat) : AllDigits (List.replicate k '0') := by
  intro c hc
  rw [(List.mem_replicate.mp hc).2]
  decide

theorem value_replicate_zero_append (k : Nat) (l : List Char) :
    value (List.replicate k '0' ++ l) = value l := by
  induction k with
  | zero => rfl
  | succ k ih =>
    have h0 : ∀ m : List Char, value ('0' :: m) = value m := by
      intro m
      simp [value]
    rw [List.replicate_succ, List.cons_append, h0, ih]

/-- What the digit loop produces: digits, at least one, standing for the number, and no more
of them than the size of the number allows. -/
theorem utoa_spec (fuel : Nat) : ∀ (u : Nat) (acc : List Char), u ≤ fuel →
    ∃ ds : List Char, utoa fuel u acc = ds ++ acc ∧ AllDigits ds ∧ ds ≠ [] ∧ value ds = u ∧
      ∀ k : Nat, 0 < k → u < 10 ^ k → ds.length ≤ k := by
  induction fuel with
  | zero =>
    intro u acc hu
    have hu0 : u = 0 := by omega
    subst hu0
    refine ⟨['0'], rfl, by intro c hc; simp at hc; subst hc; decide, by simp, by decide, ?_⟩
    intro k hk _
    simpa using hk
  | succ fuel ih =>
    intro u acc hu
    by_cases hlt : u < 10
    · refine ⟨[digitChar u], by simp [utoa, hlt], ?_, by simp, ?_, ?_⟩
      · intro c hc
        simp at hc
        subst hc
        exact digitChar_isDigit u hlt
      · simp [value, digitChar_toNat u hlt]
      · intro k hk _
        simpa using hk
    · obtain ⟨ds, hds, hall, _, hval, hlen⟩ :=
        ih (u / 10) (digitChar (u % 10) :: acc) (by omega)
      refine ⟨ds ++ [digitChar (u % 10)], by simp [utoa, hlt, hds], ?_, by simp, ?_, ?_⟩
      · apply allDigits_append hall
        intro c hc
        simp at hc
        subst hc
        exact digitChar_isDigit _ (by omega)
      · rw [value_append_singleton, hval, digitChar_toNat _ (by omega)]
        omega
      · intro k hk hu10
        cases k with
        | zero => omega
        | succ k =>
          have hk0 : 0 < k := by
            rcases Nat.eq_zero_or_pos k with h0 | h0
            · subst h0
              simp at hu10
              omega
            · exact h0
          have : u / 10 < 10 ^ k := by
            rw [Nat.div_lt_iff_lt_mul (by decide)]
            rw [pow_succ] at hu10
            exact hu10
          have := hlen k hk0 this
          simp
          omega

theorem decimal_spec (u : Nat) :
    AllDigits (decimal u) ∧ decimal u ≠ [] ∧ value (decimal u) = u ∧
      ∀ k : Nat, 0 < k → u < 10 ^ k → (decimal u).length ≤ k := by
  obtain ⟨ds, hds, h⟩ := utoa_spec u u [] (Nat.le_refl u)
  have : decimal u = ds := by simp [decimal, hds]
  rw [this]
  exact h

theorem digits_split (a : List Char) : ∀ (b : List Char) (c d : Char) (r s : List Char),
    AllDigits a → AllDigits b → c.isDigit = false → d.isDigit = false →
    a ++ c :: r = b ++ d :: s → a = b ∧ c = d ∧ r = s := by
  induction a with
  | nil =>
    intro b c d r s _ hb hc _ h
    cases b with
    | nil =>
      simp at h
      exact ⟨rfl, h.1, h.2⟩
    | cons x b =>
      simp at h
      have := hb x (List.mem_cons_self x b)
      rw [← h.1, hc] at this
      cases this
  | cons x a ih =>
    intro b c d r s ha hb _ hd h
    cases b with
    | nil =>
      simp at h
      have := ha x (List.mem_cons_self x a)
      rw [h.1, hd] at this
      cases this
    | cons y b =>
      simp at h
      obtain ⟨h1, h2, h3⟩ := ih b c d r s (fun z hz => ha z (List.mem_cons_of_mem x hz))
        (fun z hz => hb z (List.mem_cons_of_mem y hz)) ‹_› hd h.2
      exact ⟨by rw [h.1, h1], h2, h3⟩

/-- The padded digits of a number. -/
theorem appendInt_nonneg (x : Int) (width : Nat) (hx : 0 ≤ x) :
    appendInt x width
      = List.replicate (width - (decimal x.natAbs).length) '0' ++ decimal x.natAbs := by
  simp [appendInt, Int.not_lt.mpr hx]

theorem appendInt_neg (x : Int) (width : Nat) (hx : x < 0) :
    appendInt x width
      = '-' :: (List.replicate (width - (decimal x.natAbs).length) '0' ++ decimal x.natAbs) := by
  simp [appendInt, hx]

theorem appendInt_allDigits (x : Int) (width : Nat) (hx : 0 ≤ x) :
    AllDigits (appendInt x width) := by
  rw [appendInt_nonneg x width hx]
  exact allDigits_append (allDigits_replicate_zero _) (decimal_spec _).1

theorem appendInt_value (x : Int) (width : Nat) (hx : 0 ≤ x) :
    value (appendInt x width) = x.natAbs := by
  rw [appendInt_nonneg x width hx, value_replicate_zero_append]
  exact (decimal_spec _).2.2.1

theorem appendInt_length (x : Int) (width : Nat) (hx : 0 ≤ x) (hw : 0 < width)
    (hlt : x.natAbs < 10 ^ width) : (appendInt x width).length = width := by
  rw [appendInt_nonneg x width hx]
  have := (decimal_spec x.natAbs).2.2.2 width hw hlt
  simp
  omega

theorem appendInt_ne_nil (x : Int) (width : Nat) : appendInt x width ≠ [] := by
  by_cases hx : x < 0
  · rw [appendInt_neg x width hx]
    simp
  · rw [appendInt_nonneg x width (Int.not_lt.mp hx)]
    have := (decimal_spec x.natAbs).2.1
    simp [this]

/-- A number is determined by its padded digits. -/
theorem appendInt_inj (x y : Int) (w v : Nat) (h : appendInt x w = appendInt y v) : x = y := by
  by_cases hx : x < 0
  · by_cases hy : y < 0
    · rw [appendInt_neg x w hx, appendInt_neg y v hy] at h
      have h2 := congrArg value (List.cons.inj h).2
      rw [value_replicate_zero_append, value_replicate_zero_append,
        (decimal_spec _).2.2.1, (decimal_spec _).2.2.1] at h2
      omega
    · have hy0 := Int.not_lt.mp hy
      have hd := appendInt_allDigits y v hy0
      rw [← h, appendInt_neg x w hx] at hd
      have := hd '-' (List.mem_cons_self _ _)
      exact absurd this (by decide)
  · have hx0 := Int.not_lt.mp hx
    by_cases hy : y < 0
    · have hd := appendInt_allDigits x w hx0
      rw [h, appendInt_neg y v hy] at hd
      have := hd '-' (List.mem_cons_self _ _)
      exact absurd this (by decide)
    · have hy0 := Int.not_lt.mp hy
      have h2 := congrArg value h
      rw [appendInt_value x w hx0, appendInt_value y v hy0] at h2
      omega

/-- A field written by appendInt and followed by a separator can be read back. -/
theorem appendInt_split (x y : Int) (w v : Nat) (c d : Char) (r s : List Char)
    (hc : c.isDigit = false) (hd : d.isDigit = false)
    (h : appendInt x w ++ c :: r = appendInt y v ++ d :: s) : x = y ∧ c = d ∧ r = s := by
  have key : appendInt x w = appendInt y v ∧ c = d ∧ r = s := by
    by_cases hx : x < 0
    · by_cases hy : y < 0
      · rw [appendInt_neg x w hx, appendInt_neg y v hy] at h ⊢
        simp only [List.cons_append, List.cons.injEq, true_and] at h ⊢
        exact digits_split _ _ c d r s
          (allDigits_append (allDigits_replicate_zero _) (decimal_spec _).1)
          (allDigits_append (allDigits_replicate_zero _) (decimal_spec _).1) hc hd h
      · have hy0 := Int.not_lt.mp hy
        have hdig := appendInt_allDigits y v hy0
        have hne := appendInt_ne_nil y v
        rw [appendInt_neg x w hx] at h
        cases hz : appendInt y v with
        | nil => exact absurd hz hne
        | cons z zs =>
          rw [hz] at h hdig
          simp at h
          have := hdig z (List.mem_cons_self _ _)
          rw [← h.1] at this
          exact absurd this (by decide)
    · have hx0 := Int.not_lt.mp hx
      by_cases hy : y < 0
      · have hdig := appendInt_allDigits x w hx0
        have hne := appendInt_ne_nil x w
        rw [appendInt_neg y v hy] at h
        cases hz : appendInt x w with
        | nil => exact absurd hz hne
        | cons z zs =>
          rw [hz] at h hdig
          simp at h
          have := hdig z (List.mem_cons_self _ _)
          rw [h.1] at this
          exact absurd this (by decide)
      · exact digits_split _ _ c d r s (appendInt_allDigits x w hx0)
          (appendInt_allDigits y v (Int.not_lt.mp hy)) hc hd h
  exact ⟨appendInt_inj x y w v key.1, key.2⟩

theorem trim_spec (l : List Char) :
    ∃ k : Nat, l = (l.reverse.dropWhile (fun c => c = '0')).reverse ++ List.replicate k '0' := by
  have h := List.takeWhile_append_dropWhile (fun c => decide (c = '0')) l.reverse
  have hall : ∀ x ∈ (l.reverse.takeWhile (fun c => decide (c = '0'))).reverse, x = '0' := by
    intro x hx
    have := List.mem_takeWhile_imp (List.mem_reverse.mp hx)
    simpa using this
  refine ⟨(l.reverse.takeWhile (fun c => decide (c = '0'))).length, ?_⟩
  have h2 := congrArg List.reverse h
  rw [List.reverse_append, List.reverse_reverse] at h2
  have e := List.eq_replicate_of_mem hall
  rw [List.length_reverse] at e
  rw [e] at h2
  exact h2.symm

theorem appendNano_split (n m : Nat) (hn : n < 10 ^ 9) (hm : m < 10 ^ 9) (r s : List Char)
    (h : appendNano n ++ ' ' :: r = appendNano m ++ ' ' :: s) : n = m ∧ r = s := by
  have hlen : ∀ x : Nat, x < 10 ^ 9 → (appendInt (x : Int) 9).length = 9 := by
    intro x hx
    exact appendInt_length x 9 (Int.ofNat_nonneg x) (by decide) (by simpa using hx)
  have hdig : ∀ x : Nat,
      AllDigits ((appendInt (x : Int) 9).reverse.dropWhile (fun c => c = '0')).reverse := by
    intro x c hc
    obtain ⟨k, hk⟩ := trim_spec (appendInt (x : Int) 9)
    apply appendInt_allDigits (x : Int) 9 (Int.ofNat_nonneg x)
    rw [hk]
    exact List.mem_append_left _ hc
  by_cases h1 : n = 0
  · by_cases h2 : m = 0
    · subst h1 h2
      simpa [appendNano] using h
    · subst h1
      simp [appendNano, h2] at h
  · by_cases h2 : m = 0
    · subst h2
      simp [appendNano, h1] at h
    · simp only [appendNano, h1, h2, if_false, List.cons_append, List.cons.injEq, true_and] at h
      obtain ⟨ht, _, hrs⟩ := digits_split _ _ ' ' ' ' r s (hdig n) (hdig m) (by decide)
        (by decide) h
      refine ⟨?_, hrs⟩
      obtain ⟨k1, hk1⟩ := trim_spec (appendInt (n : Int) 9)
      obtain ⟨k2, hk2⟩ := trim_spec (appendInt (m : Int) 9)
      have l1 := hlen n hn
      have l2 := hlen m hm
      rw [hk1] at l1
      rw [hk2] at l2
      rw [ht] at hk1 l1
      simp at l1 l2
      have hk : k1 = k2 := by omega
      rw [hk, ← hk2] at hk1
      have := appendInt_inj _ _ _ _ hk1
      omega

/-- The cycles of 400, 100, 4 and 1 years the first half of absDate cuts off. -/
theorem yearDay_decomp (d : Int) :
    ∃ n400 n100 n4 n1 : Int,
      yearDay d = (1 + 400 * n400 + 100 * n100 + 4 * n4 + n1,
        d - 146097 * n400 - 36524 * n100 - 1461 * n4 - 365 * n1) ∧
      0 ≤ n100 ∧ n100 ≤ 3 ∧ 0 ≤ n4 ∧ n4 ≤ 24 ∧ 0 ≤ n1 ∧ n1 ≤ 3 ∧
      0 ≤ d - 146097 * n400 - 36524 * n100 - 1461 * n4 - 365 * n1 ∧
      d - 146097 * n400 - 36524 * n100 - 1461 * n4 - 365 * n1 ≤ 365 := by
  have e1 : ∀ x : Int, 0 ≤ x → x ≤ 146096 →
      0 ≤ x / 36524 - x / 36524 / 4 ∧ x / 36524 - x / 36524 / 4 ≤ 3 ∧
      0 ≤ x - 36524 * (x / 36524 - x / 36524 / 4) ∧
      x - 36524 * (x / 36524 - x / 36524 / 4) ≤ 36524 := by
    intro x h0 h1
    omega
  have e2 : ∀ x : Int, 0 ≤ x → x ≤ 36524 →
      0 ≤ x / 1461 ∧ x / 1461 ≤ 24 ∧ 0 ≤ x - 1461 * (x / 1461) ∧
      x - 1461 * (x / 1461) ≤ 1460 := by
    intro x h0 h1
    omega
  have e3 : ∀ x : Int, 0 ≤ x → x ≤ 1460 →
      0 ≤ x / 365 - x / 365 / 4 ∧ x / 365 - x / 365 / 4 ≤ 3 ∧
      0 ≤ x - 365 * (x / 365 - x / 365 / 4) ∧
      x - 365 * (x / 365 - x / 365 / 4) ≤ 365 := by
    intro x h0 h1
    omega
  have h0 : 0 ≤ d - 146097 * (d / 146097) ∧ d - 146097 * (d / 146097) ≤ 146096 := by omega
  obtain ⟨a1, a2, a3, a4⟩ := e1 _ h0.1 h0.2
  obtain ⟨b1, b2, b3, b4⟩ := e2 _ a3 a4
  obtain ⟨c1, c2, c3, c4⟩ := e3 _ b3 b4
  refine ⟨d / 146097, _, _, _, ?_, a1, a2, b1, b2, c1, c2, ?_, ?_⟩
  · simp only [yearDay]
  · linarith
  · linarith

theorem yearDay_range (d : Int) : 0 ≤ (yearDay d).2 ∧ (yearDay d).2 ≤ 365 := by
  obtain ⟨n400, n100, n4, n1, h, _, _, _, _, _, _, h1, h2⟩ := yearDay_decomp d
  rw [h]
  exact ⟨h1, h2⟩

theorem yearDay_inj (a b : Int) (h : yearDay a = yearDay b) : a = b := by
  obtain ⟨a400, a100, a4, a1, ha, _, _, _, _, _, _, _, _⟩ := yearDay_decomp a
  obtain ⟨b400, b100, b4, b1, hb, _, _, _, _, _, _, _, _⟩ := yearDay_decomp b
  rw [ha, hb] at h
  simp only [Prod.mk.injEq] at h
  obtain ⟨hy, hd⟩ := h
  have e1 : a1 = b1 := by omega
  subst e1
  have e4 : a4 = b4 := by omega
  subst e4
  have e100 : a100 = b100 := by omega
  subst e100
  have e400 : a400 = b400 := by omega
  subst e400
  linarith

set_option maxRecDepth 100000 in
theorem monthDay_inverse (leap : Bool) :
    ∀ n : Nat, n < 366 → ydayOf leap (monthDay leap n).1 (monthDay leap n).2 = n ∧
      0 ≤ (monthDay leap n).1 ∧ 0 ≤ (monthDay leap n).2 := by
  cases leap <;> decide

theorem appendNano_cons (n : Nat) (r : List Char) :
    ∃ (c : Char) (r2 : List Char), appendNano n ++ ' ' :: r = c :: r2 ∧ c.isDigit = false := by
  by_cases h : n = 0
  · exact ⟨' ', r, by simp [appendNano, h], by decide⟩
  · refine ⟨'.', ((appendInt n 9).reverse.dropWhile (fun c => c = '0')).reverse ++ ' ' :: r,
      ?_, by decide⟩
    rw [appendNano, if_neg h]
    rfl

/-- The text of a clock reading followed by anything, field by field. -/
theorem Time.format_append (t : Time) (tail : List Char) :
    t.format ++ tail
      = appendInt (yearDay (t.abs / 86400)).1 4 ++ '-' ::
        (appendInt (monthDay (isLeap (yearDay (t.abs / 86400)).1)
            (yearDay (t.abs / 86400)).2).1 2 ++ '-' ::
        (appendInt (monthDay (isLeap (yearDay (t.abs / 86400)).1)
            (yearDay (t.abs / 86400)).2).2 2 ++ ' ' ::
        (appendInt (t.abs % 86400 / 3600) 2 ++ ':' ::
        (appendInt ((t.abs % 86400 - t.abs % 86400 / 3600 * 3600) / 60) 2 ++ ':' ::
        (appendInt (t.abs % 86400 - t.abs % 86400 / 3600 * 3600
            - (t.abs % 86400 - t.abs % 86400 / 3600 * 3600) / 60 * 60) 2 ++
        (appendNano t.nsec ++ ' ' ::
        ((if Int.tdiv t.zoneOffset 60 < 0 then '-' else '+') ::
        ((appendInt ((Int.tdiv t.zoneOffset 60).natAbs / 60 : Nat) 2
          ++ appendInt ((Int.tdiv t.zoneOffset 60).natAbs % 60 : Nat) 2) ++ ' ' ::
        ((if t.zoneName ≠ "" then t.zoneName.data
          else (if Int.tdiv t.zoneOffset 60 < 0 then '-' else '+') ::
            (appendInt ((Int.tdiv t.zoneOffset 60).natAbs / 60 : Nat) 2
              ++ appendInt ((Int.tdiv t.zoneOffset 60).natAbs % 60 : Nat) 2))
          ++ tail))))))))) := by
  simp only [Time.format, List.append_assoc, List.cons_append]

/-- The wall clock of a reading can be read back from its text, as long as the zone offset
is a whole number of minutes. -/
theorem Time.String_inj (t u : Time) (ht : (60 : Int) ∣ t.zoneOffset)
    (hu : (60 : Int) ∣ u.zoneOffset) (h : t.String = u.String) :
    t.sec = u.sec ∧ t.nsec = u.nsec := by
  have h0 := congrArg String.data h
  simp only [Time.String] at h0
  rw [Time.format_append, Time.format_append] at h0
  -- the date and the clock
  obtain ⟨hY, -, h1⟩ := appendInt_split _ _ _ _ _ _ _ _ (by decide) (by decide) h0
  obtain ⟨hM, -, h2⟩ := appendInt_split _ _ _ _ _ _ _ _ (by decide) (by decide) h1
  obtain ⟨hD, -, h3⟩ := appendInt_split _ _ _ _ _ _ _ _ (by decide) (by decide) h2
  obtain ⟨hh, -, h4⟩ := appendInt_split _ _ _ _ _ _ _ _ (by decide) (by decide) h3
  obtain ⟨hm, -, h5⟩ := appendInt_split _ _ _ _ _ _ _ _ (by decide) (by decide) h4
  -- the seconds and the nanoseconds
  obtain ⟨c1, r1, e1, hc1⟩ := appendNano_cons t.nsec
    ((if Int.tdiv t.zoneOffset 60 < 0 then '-' else '+') ::
        ((appendInt ((Int.tdiv t.zoneOffset 60).natAbs / 60 : Nat) 2
          ++ appendInt ((Int.tdiv t.zoneOffset 60).natAbs % 60 : Nat) 2) ++ ' ' ::
        ((if t.zoneName ≠ "" then t.zoneName.data
          else (if Int.tdiv t.zoneOffset 60 < 0 then '-' else '+') ::
            (appendInt ((Int.tdiv t.zoneOffset 60).natAbs / 60 : Nat) 2
              ++ appendInt ((Int.tdiv t.zoneOffset 60).natAbs % 60 : Nat) 2))
          ++ (match t.mono with | some ext => Time.monotonic ext | none => []))))
  obtain ⟨c2, r2, e2, hc2⟩ := appendNano_cons u.nsec
    ((if Int.tdiv u.zoneOffset 60 < 0 then '-' else '+') ::
        ((appendInt ((Int.tdiv u.zoneOffset 60).natAbs / 60 : Nat) 2
          ++ appendInt ((Int.tdiv u.zoneOffset 60).natAbs % 60 : Nat) 2) ++ ' ' ::
        ((if u.zoneName ≠ "" then u.zoneName.data
          else (if Int.tdiv u.zoneOffset 60 < 0 then '-' else '+') ::
            (appendInt ((Int.tdiv u.zoneOffset 60).natAbs / 60 : Nat) 2
              ++ appendInt ((Int.tdiv u.zoneOffset 60).natAbs % 60 : Nat) 2))
          ++ (match u.mono with | some ext => Time.monotonic ext | none => []))))
  have h5b := h5
  rw [e1, e2] at h5b
  obtain ⟨hs, hcc, hrr⟩ := appendInt_split _ _ _ _ _ _ _ _ hc1 hc2 h5b
  have h6 : _ = _ := e1.trans ((congrArg₂ List.cons hcc hrr).trans e2.symm)
  obtain ⟨hn, h7⟩ := appendNano_split _ _ t.nsec.isLt u.nsec.isLt _ _ h6
  -- the zone
  obtain ⟨hsign, h8⟩ := List.cons.inj h7
  obtain ⟨hz, -, -⟩ := digits_split _ _ _ _ _ _
    (allDigits_append (appendInt_allDigits _ 2 (Int.ofNat_nonneg _))
      (appendInt_allDigits _ 2 (Int.ofNat_nonneg _)))
    (allDigits_append (appendInt_allDigits _ 2 (Int.ofNat_nonneg _))
      (appendInt_allDigits _ 2 (Int.ofNat_nonneg _))) (by decide) (by decide) h8
  have hlen : ∀ z : Int, (appendInt ((z.natAbs % 60 : Nat) : Int) 2).length = 2 := by
    intro z
    apply appendInt_length _ 2 (Int.ofNat_nonneg _) (by decide)
    have : z.natAbs % 60 < 60 := Nat.mod_lt _ (by decide)
    simp only [Int.natAbs_ofNat]
    omega
  obtain ⟨hzh, hzm⟩ := List.append_inj' hz ((hlen _).trans (hlen _).symm)
  have hzh2 := appendInt_inj _ _ _ _ hzh
  have hzm2 := appendInt_inj _ _ _ _ hzm
  have hzone : Int.tdiv t.zoneOffset 60 = Int.tdiv u.zoneOffset 60 := by
    have habs : (Int.tdiv t.zoneOffset 60).natAbs = (Int.tdiv u.zoneOffset 60).natAbs := by
      omega
    by_cases s1 : Int.tdiv t.zoneOffset 60 < 0
    · by_cases s2 : Int.tdiv u.zoneOffset 60 < 0
      · omega
      · simp [s1, s2] at hsign
    · by_cases s2 : Int.tdiv u.zoneOffset 60 < 0
      · simp [s1, s2] at hsign
      · omega
  have hoff : t.zoneOffset = u.zoneOffset := by
    rw [← Int.mul_tdiv_cancel' ht, ← Int.mul_tdiv_cancel' hu, hzone]
  -- back from the date and the clock to the second
  have hr1 := yearDay_range (t.abs / 86400)
  have hr2 := yearDay_range (u.abs / 86400)
  have hyd : (yearDay (t.abs / 86400)).2 = (yearDay (u.abs / 86400)).2 := by
    have i1 := (monthDay_inverse (isLeap (yearDay (t.abs / 86400)).1)
      (yearDay (t.abs / 86400)).2.toNat (by omega)).1
    have i2 := (monthDay_inverse (isLeap (yearDay (u.abs / 86400)).1)
      (yearDay (u.abs / 86400)).2.toNat (by omega)).1
    rw [Int.toNat_of_nonneg hr1.1] at i1
    rw [Int.toNat_of_nonneg hr2.1] at i2
    rw [← i1, ← i2, hM, hD, hY]
  have hday : t.abs / 86400 = u.abs / 86400 := yearDay_inj _ _ (Prod.ext hY hyd)
  have habs : t.abs = u.abs := by omega
  simp only [Time.abs] at habs
  exact ⟨by omega, Fin.ext hn⟩

end Go

/-! ## Facts about container queries -/

theorem Container.execsOf_append (a b : List Step) :
    Container.execsOf (a ++ b) = Container.execsOf a ++ Container.execsOf b := by
  induction a with
  | nil => rfl
  | cons s t ih => cases s <;> simp [Container.execsOf, ih]

theorem Container.secretsOf_append (a b : List Step) :
    Container.secretsOf (a ++ b) = Container.secretsOf a ++ Container.secretsOf b := by
  induction a with
  | nil => rfl
  | cons s t ih => cases s <;> simp [Container.secretsOf, ih]

theorem Container.envOf_append (a b : List Step) :
    Container.envOf (a ++ b) = Container.envOf a ++ Container.envOf b := by
  induction a with
  | nil => rfl
  | cons s t ih => cases s <;> simp [Container.envOf, ih]

theorem Container.envOf_setup (os arch : String) (token : Option Secret) :
    Container.envOf (setupSteps os arch ++ credentialSteps token) = [] := by
  cases token <;> rfl

theorem Container.secretsOf_setup (os arch : String) :
    Container.secretsOf (setupSteps os arch) = [] := rfl

/-! ## Facts about the environment builder -/

theorem releaseURL_eq (part0 part1 : String) :
    "https://github.com/civo/cli/releases/download/v" ++ civoVersion ++ "/civo-"
      ++ civoVersion ++ "-" ++ part0 ++ "-" ++ part1 ++ ".tar.gz" = releaseURL part0 part1 := by
  have h : "https://github.com/civo/cli/releases/download/v" ++ civoVersion ++ "/civo-"
      ++ civoVersion ++ "-"
      = "https://github.com/civo/cli/releases/download/v1.0.75/civo-1.0.75-" := by decide
  rw [h]
  rfl

theorem civoContainer_of_split (dag : Runtime) (apiToken : Option Secret)
    (platform part0 part1 : String) (hp : dag.DefaultPlatform = .ok platform)
    (hs : Go.SplitN platform "/" 2 = [part0, part1]) :
    civoContainer dag apiToken = .ok ⟨setupSteps part0 part1 ++ credentialSteps apiToken⟩ := by
  unfold civoContainer
  rw [hp]
  simp only [hs, Go.index, List.get?, bind, Except.bind, releaseURL_eq]
  cases apiToken <;> rfl

theorem civoContainer_of_no_separator (dag : Runtime) (apiToken : Option Secret)
    (platform : String) (hp : dag.DefaultPlatform = .ok platform) (hs : '/' ∉ platform.data) :
    civoContainer dag apiToken = .error (Panic.indexOutOfRange 1 1) := by
  unfold civoContainer
  rw [hp]
  simp only [Go.SplitN_slash_of_not_mem platform hs, Go.index, List.get?, bind, Except.bind,
    List.length_singleton]

theorem civoContainer_of_error (dag : Runtime) (apiToken : Option Secret)
    (err : String) (hp : dag.DefaultPlatform = .error err) :
    civoContainer dag apiToken = .error (Panic.error err) := by
  unfold civoContainer
  rw [hp]

theorem civoContainer_ok_inv (dag : Runtime) (apiToken : Option Secret) (c : Container)
    (hc : civoContainer dag apiToken = .ok c) :
    ∃ os arch : String, '/' ∉ os.data ∧ dag.DefaultPlatform = .ok (os ++ "/" ++ arch) ∧
      ∀ token, civoContainer dag token = .ok ⟨setupSteps os arch ++ credentialSteps token⟩ := by
  cases hp : dag.DefaultPlatform with
  | error err => rw [civoContainer_of_error dag apiToken err hp] at hc; cases hc
  | ok platform =>
    by_cases hs : '/' ∈ platform.data
    · obtain ⟨os, arch, he, hno⟩ := Go.exists_split_of_mem platform hs
      subst he
      exact ⟨os, arch, hno, rfl, fun token =>
        civoContainer_of_split dag token _ os arch hp (Go.SplitN_slash_append os arch hno)⟩
    · rw [civoContainer_of_no_separator dag apiToken platform hp hs] at hc
      cases hc

theorem civoContainer_ok_eq (dag : Runtime) (apiToken : Option Secret) (c : Container)
    (hc : civoContainer dag apiToken = .ok c) :
    ∃ os arch : String, c = ⟨setupSteps os arch ++ credentialSteps apiToken⟩ ∧
      ∀ token, civoContainer dag token = .ok ⟨setupSteps os arch ++ credentialSteps token⟩ := by
  obtain ⟨os, arch, _, _, h⟩ := civoContainer_ok_inv dag apiToken c hc
  refine ⟨os, arch, ?_, h⟩
  have := h apiToken
  rw [hc] at this
  exact Except.ok.inj this

/-! ## Facts about the operations -/

theorem Container.lastExec_snoc (steps : List Step) (mid : List Step) (args : List String)
    (hmid : Container.execsOf mid = []) :
    Container.lastExec ⟨steps ++ mid ++ [Step.WithExec args]⟩ = some args := by
  simp [Container.lastExec, Container.execs, Container.execsOf_append, hmid, Container.execsOf]

theorem Container.execs_snoc (steps : List Step) (mid : List Step) (args : List String)
    (hmid : Container.execsOf mid = []) :
    Container.execs ⟨steps ++ mid ++ [Step.WithExec args]⟩
      = Container.execs ⟨steps⟩ ++ [args] := by
  simp [Container.execs, Container.execsOf_append, hmid, Container.execsOf]

theorem ClusterList_container_of_ok (dag : Runtime) (apiToken : Option Secret) (region : String)
    (c : Container) (hc : civoContainer dag apiToken = .ok c) :
    ClusterList.container dag apiToken region
      = .ok ⟨c.steps ++ [Step.WithEnvVariable "CACHE_BUSTER" dag.Now.String]
          ++ [Step.WithExec ["k3s", "list", "--region", region]]⟩ := by
  simp only [ClusterList.container, hc, bind, Except.bind, pure, Except.pure,
    Container.WithEnvVariable, Container.WithExec]

theorem ClusterShow_container_of_ok (dag : Runtime) (apiToken : Option Secret)
    (region name : String) (c : Container) (hc : civoContainer dag apiToken = .ok c) :
    ClusterShow.container dag apiToken region name
      = .ok ⟨c.steps ++ [Step.WithEnvVariable "CACHE_BUSTER" dag.Now.String]
          ++ [Step.WithExec ["k3s", "get", name, "--region", region]]⟩ := by
  simp only [ClusterShow.container, hc, bind, Except.bind, pure, Except.pure,
    Container.WithEnvVariable, Container.WithExec]

theorem ClusterCreate_container_of_ok (dag : Runtime) (apiToken : Option Secret)
    (region name nodeCount nodeSize version : String) (c : Container)
    (hc : civoContainer dag apiToken = .ok c) :
    ClusterCreate.container dag apiToken region name nodeCount nodeSize version
      = .ok ⟨c.steps ++ [Step.WithEnvVariable "CACHE_BUSTER" dag.Now.String]
          ++ [Step.WithExec ["k3s", "create", name, "--region", region, "--nodes", nodeCount,
            "--size", nodeSize, "--version", version, "--wait"]]⟩ := by
  simp only [ClusterCreate.container, hc, bind, Except.bind, pure, Except.pure,
    Container.WithEnvVariable, Container.WithExec]

theorem Version_container_of_ok (dag : Runtime) (c : Container)
    (hc : civoContainer dag none = .ok c) :
    Version.container dag = .ok ⟨c.steps ++ [] ++ [Step.WithExec ["version"]]⟩ := by
  simp only [Version.container, hc, bind, Except.bind, pure, Except.pure,
    Container.WithExec, List.append_nil]

theorem ClusterList_of_container (dag : Runtime) (apiToken : Option Secret) (region : String)
    (p : Container) (hp : ClusterList.container dag apiToken region = .ok p) :
    ClusterList dag apiToken region = .ok (dag.Stdout p) := by
  simp only [ClusterList, hp, bind, Except.bind, pure, Except.pure]

theorem ClusterShow_of_container (dag : Runtime) (apiToken : Option Secret)
    (region name : String) (p : Container)
    (hp : ClusterShow.container dag apiToken region name = .ok p) :
    ClusterShow dag apiToken region name = .ok (dag.Stdout p) := by
  simp only [ClusterShow, hp, bind, Except.bind, pure, Except.pure]

theorem ClusterCreate_of_container (dag : Runtime) (apiToken : Option Secret)
    (region name nodeCount nodeSize version : String) (p : Container)
    (hp : ClusterCreate.container dag apiToken region name nodeCount nodeSize version = .ok p) :
    ClusterCreate dag apiToken region name nodeCount nodeSize version = .ok (dag.Stdout p) := by
  simp only [ClusterCreate, hp, bind, Except.bind, pure, Except.pure]

theorem Version_of_container (dag : Runtime) (p : Container)
    (hp : Version.container dag = .ok p) : Version dag = .ok (dag.Stdout p) := by
  simp only [Version, hp, bind, Except.bind, pure, Except.pure]

/-! ## The claims -/

/-- C1: whenever the environment is built, ClusterCreate asks for the output of the
environment extended by exactly one exec, whose argument vector is the twelve strings
k3s, create, name, --region, region, --nodes, nodeCount, --size, nodeSize, --version,
version, --wait, every caller string being one unmodified element. -/
theorem ClusterCreate_argument_vector (dag : Runtime) (apiToken : Option Secret)
    (region name nodeCount nodeSize version : String) (c : Container)
    (hc : civoContainer dag apiToken = .ok c) :
    ∃ p : Container,
      ClusterCreate.container dag apiToken region name nodeCount nodeSize version = .ok p ∧
      ClusterCreate dag apiToken region name nodeCount nodeSize version = .ok (dag.Stdout p) ∧
      p.execs = c.execs ++ [["k3s", "create", name, "--region", region, "--nodes", nodeCount,
        "--size", nodeSize, "--version", version, "--wait"]] ∧
      p.lastExec = some ["k3s", "create", name, "--region", region, "--nodes", nodeCount,
        "--size", nodeSize, "--version", version, "--wait"] ∧
      (["k3s", "create", name, "--region", region, "--nodes", nodeCount,
        "--size", nodeSize, "--version", version, "--wait"] : List String).length = 12 := by
  have hp := ClusterCreate_container_of_ok dag apiToken region name nodeCount nodeSize version
    c hc
  exact ⟨_, hp, ClusterCreate_of_container _ _ _ _ _ _ _ _ hp,
    Container.execs_snoc c.steps _ _ rfl, Container.lastExec_snoc c.steps _ _ rfl, rfl⟩

/-- Witness for C1 on linux/amd64 with the sample credential. -/
theorem ClusterCreate_argument_vector_witness :
    civoContainer linuxAmd64 (some sampleToken) = .ok amd64EnvironmentWithToken ∧
    ∃ p : Container,
      ClusterCreate.container linuxAmd64 (some sampleToken) "NYC1" "mycluster" "5"
        "g4s.kube.small" "1.28.7-k3s1" = .ok p ∧
      ClusterCreate linuxAmd64 (some sampleToken) "NYC1" "mycluster" "5"
        "g4s.kube.small" "1.28.7-k3s1" = .ok (linuxAmd64.Stdout p) ∧
      p.execs = amd64EnvironmentWithToken.execs ++ [["k3s", "create", "mycluster", "--region",
        "NYC1", "--nodes", "5", "--size", "g4s.kube.small", "--version", "1.28.7-k3s1",
        "--wait"]] ∧
      p.lastExec = some ["k3s", "create", "mycluster", "--region",
        "NYC1", "--nodes", "5", "--size", "g4s.kube.small", "--version", "1.28.7-k3s1",
        "--wait"] ∧
      (["k3s", "create", "mycluster", "--region",
        "NYC1", "--nodes", "5", "--size", "g4s.kube.small", "--version", "1.28.7-k3s1",
        "--wait"] : List String).length = 12 :=
  ⟨rfl, ClusterCreate_argument_vector linuxAmd64 (some sampleToken) "NYC1" "mycluster" "5"
    "g4s.kube.small" "1.28.7-k3s1" amd64EnvironmentWithToken rfl⟩

/-- C2: whenever the environment is built, ClusterList asks for the output of the
environment extended by exactly one exec, whose argument vector is k3s, list, --region,
region; for the region NYC1 it is k3s, list, --region, NYC1. -/
theorem ClusterList_argument_vector (dag : Runtime) (apiToken : Option Secret)
    (region : String) (c : Container) (hc : civoContainer dag apiToken = .ok c) :
    (∃ p : Container,
      ClusterList.container dag apiToken region = .ok p ∧
      ClusterList dag apiToken region = .ok (dag.Stdout p) ∧
      p.execs = c.execs ++ [["k3s", "list", "--region", region]] ∧
      p.lastExec = some ["k3s", "list", "--region", region]) ∧
    (∃ q : Container,
      ClusterList.container dag apiToken "NYC1" = .ok q ∧
      ClusterList dag apiToken "NYC1" = .ok (dag.Stdout q) ∧
      q.execs = c.execs ++ [["k3s", "list", "--region", "NYC1"]] ∧
      q.lastExec = some ["k3s", "list", "--region", "NYC1"]) := by
  have hp := ClusterList_container_of_ok dag apiToken region c hc
  have hq := ClusterList_container_of_ok dag apiToken "NYC1" c hc
  exact ⟨⟨_, hp, ClusterList_of_container _ _ _ _ hp,
      Container.execs_snoc c.steps _ _ rfl, Container.lastExec_snoc c.steps _ _ rfl⟩,
    ⟨_, hq, ClusterList_of_container _ _ _ _ hq,
      Container.execs_snoc c.steps _ _ rfl, Container.lastExec_snoc c.steps _ _ rfl⟩⟩

/-- Witness for C2 on linux/amd64 with the sample credential. -/
theorem ClusterList_argument_vector_witness :
    civoContainer linuxAmd64 (some sampleToken) = .ok amd64EnvironmentWithToken ∧
    ((∃ p : Container,
      ClusterList.container linuxAmd64 (some sampleToken) "LON1" = .ok p ∧
      ClusterList linuxAmd64 (some sampleToken) "LON1" = .ok (linuxAmd64.Stdout p) ∧
      p.execs = amd64EnvironmentWithToken.execs ++ [["k3s", "list", "--region", "LON1"]] ∧
      p.lastExec = some ["k3s", "list", "--region", "LON1"]) ∧
    (∃ q : Container,
      ClusterList.container linuxAmd64 (some sampleToken) "NYC1" = .ok q ∧
      ClusterList linuxAmd64 (some sampleToken) "NYC1" = .ok (linuxAmd64.Stdout q) ∧
      q.execs = amd64EnvironmentWithToken.execs ++ [["k3s", "list", "--region", "NYC1"]] ∧
      q.lastExec = some ["k3s", "list", "--region", "NYC1"])) :=
  ⟨rfl, ClusterList_argument_vector linuxAmd64 (some sampleToken) "LON1"
    amd64EnvironmentWithToken rfl⟩

/-- C3, as the code has it: whenever the environment is built without a credential,
Version asks for the output of that environment extended by exactly one exec, whose
argument vector is the single string version, and no secret variable is attached. -/
theorem Version_argument_vector (dag : Runtime) (c : Container)
    (hc : civoContainer dag none = .ok c) :
    ∃ p : Container,
      Version.container dag = .ok p ∧
      Version dag = .ok (dag.Stdout p) ∧
      p.execs = c.execs ++ [["version"]] ∧
      p.lastExec = some ["version"] ∧
      p.secretVariables = [] := by
  have hp := Version_container_of_ok dag c hc
  refine ⟨_, hp, Version_of_container _ _ hp,
    Container.execs_snoc c.steps _ _ rfl, Container.lastExec_snoc c.steps _ _ rfl, ?_⟩
  obtain ⟨os, arch, he, _⟩ := civoContainer_ok_eq dag none c hc
  subst he
  rfl

/-- Witness for the amended C3 on linux/amd64. -/
theorem Version_argument_vector_witness :
    civoContainer linuxAmd64 none = .ok amd64Environment ∧
    ∃ p : Container,
      Version.container linuxAmd64 = .ok p ∧
      Version linuxAmd64 = .ok (linuxAmd64.Stdout p) ∧
      p.execs = amd64Environment.execs ++ [["version"]] ∧
      p.lastExec = some ["version"] ∧
      p.secretVariables = [] :=
  ⟨rfl, Version_argument_vector linuxAmd64 amd64Environment rfl⟩

/-- C3 as stated fails: on linux/amd64 the argument vector Version executes is the single
string version, which is not the vector k3s, version. -/
theorem Version_argument_vector_counterexample :
    (Version.container linuxAmd64).toOption.bind Container.lastExec = some ["version"] ∧
    (Version.container linuxAmd64).toOption.bind Container.lastExec
      ≠ some ["k3s", "version"] := by
  decide

/-- C4: whenever the environment is built, ClusterShow asks for the output of the
environment extended by exactly one exec, whose argument vector is k3s, get, name,
--region, region, whatever strings name and region are. -/
theorem ClusterShow_argument_vector (dag : Runtime) (apiToken : Option Secret)
    (region name : String) (c : Container) (hc : civoContainer dag apiToken = .ok c) :
    ∃ p : Container,
      ClusterShow.container dag apiToken region name = .ok p ∧
      ClusterShow dag apiToken region name = .ok (dag.Stdout p) ∧
      p.execs = c.execs ++ [["k3s", "get", name, "--region", region]] ∧
      p.lastExec = some ["k3s", "get", name, "--region", region] := by
  have hp := ClusterShow_container_of_ok dag apiToken region name c hc
  exact ⟨_, hp, ClusterShow_of_container _ _ _ _ _ hp,
    Container.execs_snoc c.steps _ _ rfl, Container.lastExec_snoc c.steps _ _ rfl⟩

/-- Witness for C4 on linux/amd64: an empty region and a name with blanks and an option
dash are passed through as they are. -/
theorem ClusterShow_argument_vector_witness :
    civoContainer linuxAmd64 (some sampleToken) = .ok amd64EnvironmentWithToken ∧
    ∃ p : Container,
      ClusterShow.container linuxAmd64 (some sampleToken) "" "--all my cluster" = .ok p ∧
      ClusterShow linuxAmd64 (some sampleToken) "" "--all my cluster"
        = .ok (linuxAmd64.Stdout p) ∧
      p.execs = amd64EnvironmentWithToken.execs
        ++ [["k3s", "get", "--all my cluster", "--region", ""]] ∧
      p.lastExec = some ["k3s", "get", "--all my cluster", "--region", ""] :=
  ⟨rfl, ClusterShow_argument_vector linuxAmd64 (some sampleToken) "" "--all my cluster"
    amd64EnvironmentWithToken rfl⟩

/-- C5: whenever the environment is built, a cluster-create call that leaves out node
count, node size and version executes k3s, create, name, --region, region, --nodes, 3,
--size, g4s.kube.medium, --version, latest, --wait; and in every call each optional
argument that is supplied stands in the vector in place of its default. -/
theorem ClusterCreate_default_substitution (dag : Runtime) (apiToken : Option Secret)
    (region name : String) (c : Container) (hc : civoContainer dag apiToken = .ok c) :
    (∃ p : Container,
      ClusterCreate.call.container dag apiToken region name none none none = .ok p ∧
      ClusterCreate.call dag apiToken region name none none none = .ok (dag.Stdout p) ∧
      p.execs = c.execs ++ [["k3s", "create", name, "--region", region, "--nodes", "3",
        "--size", "g4s.kube.medium", "--version", "latest", "--wait"]] ∧
      p.lastExec = some ["k3s", "create", name, "--region", region, "--nodes", "3",
        "--size", "g4s.kube.medium", "--version", "latest", "--wait"]) ∧
    (∀ nodeCount nodeSize version : Option String, ∃ q : Container,
      ClusterCreate.call.container dag apiToken region name nodeCount nodeSize version
        = .ok q ∧
      ClusterCreate.call dag apiToken region name nodeCount nodeSize version
        = .ok (dag.Stdout q) ∧
      q.lastExec = some ["k3s", "create", name, "--region", region,
        "--nodes", (match nodeCount with | some n => n | none => "3"),
        "--size", (match nodeSize with | some s => s | none => "g4s.kube.medium"),
        "--version", (match version with | some v => v | none => "latest"), "--wait"]) := by
  constructor
  · have hp := ClusterCreate_container_of_ok dag apiToken region name "3" "g4s.kube.medium"
      "latest" c hc
    exact ⟨_, hp, ClusterCreate_of_container _ _ _ _ _ _ _ _ hp,
      Container.execs_snoc c.steps _ _ rfl, Container.lastExec_snoc c.steps _ _ rfl⟩
  · intro nodeCount nodeSize version
    have hp := ClusterCreate_container_of_ok dag apiToken region name
      (nodeCount.getD ClusterCreate.nodeCountDefault)
      (nodeSize.getD ClusterCreate.nodeSizeDefault)
      (version.getD ClusterCreate.versionDefault) c hc
    refine ⟨_, hp, ClusterCreate_of_container _ _ _ _ _ _ _ _ hp, ?_⟩
    rw [Container.lastExec_snoc c.steps [Step.WithEnvVariable "CACHE_BUSTER" dag.Now.String] _ rfl]
    cases nodeCount <;> cases nodeSize <;> cases version <;> rfl

/-- Witness for C5 on linux/amd64: scenario 2 of the specification. -/
theorem ClusterCreate_default_substitution_witness :
    civoContainer linuxAmd64 (some sampleToken) = .ok amd64EnvironmentWithToken ∧
    ((∃ p : Container,
      ClusterCreate.call.container linuxAmd64 (some sampleToken) "NYC1" "mycluster"
        none none none = .ok p ∧
      ClusterCreate.call linuxAmd64 (some sampleToken) "NYC1" "mycluster" none none none
        = .ok (linuxAmd64.Stdout p) ∧
      p.execs = amd64EnvironmentWithToken.execs ++ [["k3s", "create", "mycluster", "--region",
        "NYC1", "--nodes", "3", "--size", "g4s.kube.medium", "--version", "latest",
        "--wait"]] ∧
      p.lastExec = some ["k3s", "create", "mycluster", "--region", "NYC1", "--nodes", "3",
        "--size", "g4s.kube.medium", "--version", "latest", "--wait"]) ∧
    (∀ nodeCount nodeSize version : Option String, ∃ q : Container,
      ClusterCreate.call.container linuxAmd64 (some sampleToken) "NYC1" "mycluster"
        nodeCount nodeSize version = .ok q ∧
      ClusterCreate.call linuxAmd64 (some sampleToken) "NYC1" "mycluster"
        nodeCount nodeSize version = .ok (linuxAmd64.Stdout q) ∧
      q.lastExec = some ["k3s", "create", "mycluster", "--region", "NYC1",
        "--nodes", (match nodeCount with | some n => n | none => "3"),
        "--size", (match nodeSize with | some s => s | none => "g4s.kube.medium"),
        "--version", (match version with | some v => v | none => "latest"), "--wait"])) :=
  ⟨rfl, ClusterCreate_default_substitution linuxAmd64 (some sampleToken) "NYC1" "mycluster"
    amd64EnvironmentWithToken rfl⟩

/-- C6: when the environment is built, the one built for a request with a credential and
the one built without differ in nothing but the secret variable CIVO_TOKEN, which is bound
to the supplied credential when there is one and absent otherwise; and in the containers of
ClusterList, ClusterShow and ClusterCreate the credential selection precedes the marker and
the exec of the command. -/
theorem civoContainer_credential (dag : Runtime) (c : Container)
    (hc : civoContainer dag none = .ok c) :
    (∀ apiToken : Option Secret, ∃ e : Container,
      civoContainer dag apiToken = .ok e ∧
      e.secretVariables
        = (match apiToken with | some token => [("CIVO_TOKEN", token)] | none => []) ∧
      e.withoutSecrets = c) ∧
    (∀ token : Secret,
      civoContainer dag (some token) = .ok (c.WithSecretVariable "CIVO_TOKEN" token) ∧
      (∀ region : String, ClusterList.container dag (some token) region
        = .ok ⟨c.steps ++ [Step.WithSecretVariable "CIVO_TOKEN" token,
            Step.WithEnvVariable "CACHE_BUSTER" dag.Now.String,
            Step.WithExec ["k3s", "list", "--region", region]]⟩) ∧
      (∀ region name : String, ClusterShow.container dag (some token) region name
        = .ok ⟨c.steps ++ [Step.WithSecretVariable "CIVO_TOKEN" token,
            Step.WithEnvVariable "CACHE_BUSTER" dag.Now.String,
            Step.WithExec ["k3s", "get", name, "--region", region]]⟩) ∧
      (∀ region name nodeCount nodeSize version : String,
        ClusterCreate.container dag (some token) region name nodeCount nodeSize version
        = .ok ⟨c.steps ++ [Step.WithSecretVariable "CIVO_TOKEN" token,
            Step.WithEnvVariable "CACHE_BUSTER" dag.Now.String,
            Step.WithExec ["k3s", "create", name, "--region", region, "--nodes", nodeCount,
              "--size", nodeSize, "--version", version, "--wait"]]⟩)) := by
  obtain ⟨os, arch, he, hall⟩ := civoContainer_ok_eq dag none c hc
  subst he
  have hsome : ∀ token : Secret, civoContainer dag (some token)
      = .ok (Container.WithSecretVariable ⟨setupSteps os arch ++ credentialSteps none⟩
          "CIVO_TOKEN" token) := by
    intro token
    rw [hall (some token)]
    simp [Container.WithSecretVariable, credentialSteps]
  constructor
  · intro apiToken
    cases apiToken with
    | none => exact ⟨_, hc, rfl, rfl⟩
    | some token => exact ⟨_, hsome token, rfl, rfl⟩
  · intro token
    refine ⟨hsome token, ?_, ?_, ?_⟩
    · intro region
      rw [ClusterList_container_of_ok dag (some token) region _ (hsome token)]
      simp [Container.WithSecretVariable]
    · intro region name
      rw [ClusterShow_container_of_ok dag (some token) region name _ (hsome token)]
      simp [Container.WithSecretVariable]
    · intro region name nodeCount nodeSize version
      rw [ClusterCreate_container_of_ok dag (some token) region name nodeCount nodeSize version
        _ (hsome token)]
      simp [Container.WithSecretVariable]

/-- Witness for C6 on linux/amd64. -/
theorem civoContainer_credential_witness :
    civoContainer linuxAmd64 none = .ok amd64Environment ∧
    ((∀ apiToken : Option Secret, ∃ e : Container,
      civoContainer linuxAmd64 apiToken = .ok e ∧
      e.secretVariables
        = (match apiToken with | some token => [("CIVO_TOKEN", token)] | none => []) ∧
      e.withoutSecrets = amd64Environment) ∧
    (∀ token : Secret,
      civoContainer linuxAmd64 (some token)
        = .ok (amd64Environment.WithSecretVariable "CIVO_TOKEN" token) ∧
      (∀ region : String, ClusterList.container linuxAmd64 (some token) region
        = .ok ⟨amd64Environment.steps ++ [Step.WithSecretVariable "CIVO_TOKEN" token,
            Step.WithEnvVariable "CACHE_BUSTER" linuxAmd64.Now.String,
            Step.WithExec ["k3s", "list", "--region", region]]⟩) ∧
      (∀ region name : String, ClusterShow.container linuxAmd64 (some token) region name
        = .ok ⟨amd64Environment.steps ++ [Step.WithSecretVariable "CIVO_TOKEN" token,
            Step.WithEnvVariable "CACHE_BUSTER" linuxAmd64.Now.String,
            Step.WithExec ["k3s", "get", name, "--region", region]]⟩) ∧
      (∀ region name nodeCount nodeSize version : String,
        ClusterCreate.container linuxAmd64 (some token) region name nodeCount nodeSize version
        = .ok ⟨amd64Environment.steps ++ [Step.WithSecretVariable "CIVO_TOKEN" token,
            Step.WithEnvVariable "CACHE_BUSTER" linuxAmd64.Now.String,
            Step.WithExec ["k3s", "create", name, "--region", region, "--nodes", nodeCount,
              "--size", nodeSize, "--version", version, "--wait"]]⟩))) :=
  ⟨rfl, civoContainer_credential linuxAmd64 amd64Environment rfl⟩

/-- C7, as the code has it: whenever the environment is built, each of ClusterList,
ClusterShow and ClusterCreate sets CACHE_BUSTER to the text of the clock reading of the call
directly before the exec of its command, so that two calls with the same arguments at
distinct call times, each read in a zone whose offset is a whole number of minutes, give
containers with different marker values; Version sets no environment variable at all, and
its container is the same whatever the call time. -/
theorem cache_buster_marker (dag : Runtime) (apiToken : Option Secret) (c : Container)
    (hc : civoContainer dag apiToken = .ok c)
    (region name nodeCount nodeSize version : String) :
    (∃ p : Container, ClusterList.container dag apiToken region = .ok p ∧
      p.steps = c.steps ++ [Step.WithEnvVariable "CACHE_BUSTER" dag.Now.String,
        Step.WithExec ["k3s", "list", "--region", region]] ∧
      p.envVariable "CACHE_BUSTER" = some dag.Now.String) ∧
    (∃ p : Container, ClusterShow.container dag apiToken region name = .ok p ∧
      p.steps = c.steps ++ [Step.WithEnvVariable "CACHE_BUSTER" dag.Now.String,
        Step.WithExec ["k3s", "get", name, "--region", region]] ∧
      p.envVariable "CACHE_BUSTER" = some dag.Now.String) ∧
    (∃ p : Container,
      ClusterCreate.container dag apiToken region name nodeCount nodeSize version = .ok p ∧
      p.steps = c.steps ++ [Step.WithEnvVariable "CACHE_BUSTER" dag.Now.String,
        Step.WithExec ["k3s", "create", name, "--region", region, "--nodes", nodeCount,
          "--size", nodeSize, "--version", version, "--wait"]] ∧
      p.envVariable "CACHE_BUSTER" = some dag.Now.String) ∧
    (∃ p : Container, Version.container dag = .ok p ∧
      p.envVariable "CACHE_BUSTER" = none ∧ Container.envOf p.steps = []) ∧
    (∀ later : Runtime, later.DefaultPlatform = dag.DefaultPlatform →
      Version.container later = Version.container dag) ∧
    (∀ (later : Runtime) (e : Container), civoContainer later apiToken = .ok e →
      (later.Now.sec ≠ dag.Now.sec ∨ later.Now.nsec ≠ dag.Now.nsec) →
      (60 : Int) ∣ dag.Now.zoneOffset → (60 : Int) ∣ later.Now.zoneOffset →
      (∃ p q : Container, ClusterList.container dag apiToken region = .ok p ∧
        ClusterList.container later apiToken region = .ok q ∧
        p.envVariable "CACHE_BUSTER" ≠ q.envVariable "CACHE_BUSTER" ∧ p ≠ q) ∧
      (∃ p q : Container, ClusterShow.container dag apiToken region name = .ok p ∧
        ClusterShow.container later apiToken region name = .ok q ∧
        p.envVariable "CACHE_BUSTER" ≠ q.envVariable "CACHE_BUSTER" ∧ p ≠ q) ∧
      (∃ p q : Container,
        ClusterCreate.container dag apiToken region name nodeCount nodeSize version = .ok p ∧
        ClusterCreate.container later apiToken region name nodeCount nodeSize version
          = .ok q ∧
        p.envVariable "CACHE_BUSTER" ≠ q.envVariable "CACHE_BUSTER" ∧ p ≠ q)) := by
  obtain ⟨os, arch, he, hall⟩ := civoContainer_ok_eq dag apiToken c hc
  have henv : Container.envOf c.steps = [] := by
    rw [he]
    exact Container.envOf_setup os arch apiToken
  have hmark : ∀ (b : Container) (rt : Runtime) (args : List String),
      Container.envOf b.steps = [] →
      Container.envVariable "CACHE_BUSTER"
        ⟨b.steps ++ [Step.WithEnvVariable "CACHE_BUSTER" rt.Now.String]
          ++ [Step.WithExec args]⟩
      = some rt.Now.String := by
    intro b rt args hb
    simp [Container.envVariable, Container.envValues, Container.envOf_append, hb,
      Container.envOf]
  have hsteps : ∀ (rt : Runtime) (args : List String),
      c.steps ++ [Step.WithEnvVariable "CACHE_BUSTER" rt.Now.String] ++ [Step.WithExec args]
      = c.steps ++ [Step.WithEnvVariable "CACHE_BUSTER" rt.Now.String, Step.WithExec args] := by
    intro rt args
    simp
  have hne : ∀ (later : Runtime) (e : Container) (args : List String),
      Container.envOf e.steps = [] → later.Now.String ≠ dag.Now.String →
      Container.envVariable "CACHE_BUSTER"
        ⟨c.steps ++ [Step.WithEnvVariable "CACHE_BUSTER" dag.Now.String]
          ++ [Step.WithExec args]⟩
      ≠ Container.envVariable "CACHE_BUSTER"
        ⟨e.steps ++ [Step.WithEnvVariable "CACHE_BUSTER" later.Now.String]
          ++ [Step.WithExec args]⟩
      ∧ (⟨c.steps ++ [Step.WithEnvVariable "CACHE_BUSTER" dag.Now.String]
            ++ [Step.WithExec args]⟩ : Container)
        ≠ ⟨e.steps ++ [Step.WithEnvVariable "CACHE_BUSTER" later.Now.String]
            ++ [Step.WithExec args]⟩ := by
    intro later e args hb hnow
    have h1 : Container.envVariable "CACHE_BUSTER"
        ⟨c.steps ++ [Step.WithEnvVariable "CACHE_BUSTER" dag.Now.String]
          ++ [Step.WithExec args]⟩
      ≠ Container.envVariable "CACHE_BUSTER"
        ⟨e.steps ++ [Step.WithEnvVariable "CACHE_BUSTER" later.Now.String]
          ++ [Step.WithExec args]⟩ := by
      rw [hmark c dag args henv, hmark e later args hb]
      exact fun h => hnow (Option.some.inj h).symm
    exact ⟨h1, fun h => h1 (congrArg (Container.envVariable "CACHE_BUSTER") h)⟩
  have hversion : ∃ p : Container, Version.container dag = .ok p ∧
      p.envVariable "CACHE_BUSTER" = none ∧ Container.envOf p.steps = [] := by
    refine ⟨_, Version_container_of_ok dag _ (hall none), ?_, ?_⟩
    · simp [Container.envVariable, Container.envValues, Container.envOf_append,
        Container.envOf_setup, Container.envOf]
    · simp [Container.envOf_append, Container.envOf_setup, Container.envOf]
  refine ⟨⟨_, ClusterList_container_of_ok dag apiToken region c hc, hsteps dag _,
      hmark c dag _ henv⟩,
    ⟨_, ClusterShow_container_of_ok dag apiToken region name c hc, hsteps dag _,
      hmark c dag _ henv⟩,
    ⟨_, ClusterCreate_container_of_ok dag apiToken region name nodeCount nodeSize version c hc,
      hsteps dag _, hmark c dag _ henv⟩, hversion, ?_, ?_⟩
  · intro later hplat
    have hl : civoContainer later none = civoContainer dag none := by
      unfold civoContainer
      rw [hplat]
    simp only [Version.container, hl]
  · intro later e hl hclock hz1 hz2
    obtain ⟨os2, arch2, he2, -⟩ := civoContainer_ok_eq later apiToken e hl
    have henv2 : Container.envOf e.steps = [] := by
      rw [he2]
      exact Container.envOf_setup os2 arch2 apiToken
    have hnow : later.Now.String ≠ dag.Now.String := by
      intro h
      obtain ⟨e1, e2⟩ := Go.Time.String_inj later.Now dag.Now hz2 hz1 h
      rcases hclock with h | h
      · exact h e1
      · exact h e2
    exact ⟨⟨_, _, ClusterList_container_of_ok dag apiToken region c hc,
        ClusterList_container_of_ok later apiToken region e hl,
        (hne later e _ henv2 hnow).1, (hne later e _ henv2 hnow).2⟩,
      ⟨_, _, ClusterShow_container_of_ok dag apiToken region name c hc,
        ClusterShow_container_of_ok later apiToken region name e hl,
        (hne later e _ henv2 hnow).1, (hne later e _ henv2 hnow).2⟩,
      ⟨_, _, ClusterCreate_container_of_ok dag apiToken region name nodeCount nodeSize version
          c hc,
        ClusterCreate_container_of_ok later apiToken region name nodeCount nodeSize version
          e hl,
        (hne later e _ henv2 hnow).1, (hne later e _ henv2 hnow).2⟩⟩

/-- C7 as stated fails twice.  For Version: on linux/amd64 its container sets no
CACHE_BUSTER variable, and two calls one second apart give the same container.  For the
premise of distinct call times: a call at 10:00:30 UTC in a zone half a minute behind UTC
and a call at 10:00:00 UTC in a zone of the same name at UTC are thirty seconds apart, yet
time.Now() has the same text for both (the offset is printed in whole minutes), so
ClusterList gives the same container with the same marker value. -/
theorem cache_buster_marker_counterexample :
    ((Version.container linuxAmd64).toOption.map (Container.envVariable "CACHE_BUSTER")
        = some none ∧
      linuxAmd64.Now.sec ≠ linuxAmd64Later.Now.sec ∧
      (Version.container linuxAmd64).toOption
        = (Version.container linuxAmd64Later).toOption) ∧
    (halfMinuteBehind.Now.sec ≠ onTheMinute.Now.sec ∧
      halfMinuteBehind.DefaultPlatform.toOption = onTheMinute.DefaultPlatform.toOption ∧
      halfMinuteBehind.Now.String = "2024-03-01 10:00:00.000000001 +0000 LMT m=+0.020000001" ∧
      onTheMinute.Now.String = "2024-03-01 10:00:00.000000001 +0000 LMT m=+0.020000001" ∧
      (ClusterList.container halfMinuteBehind (some sampleToken) "NYC1").toOption
        = (ClusterList.container onTheMinute (some sampleToken) "NYC1").toOption) := by
  decide

/-- Witness for the amended C7 on linux/amd64 with the sample credential. -/
theorem cache_buster_marker_witness :
    civoContainer linuxAmd64 (some sampleToken) = .ok amd64EnvironmentWithToken ∧
    ((∃ p : Container, ClusterList.container linuxAmd64 (some sampleToken) "NYC1" = .ok p ∧
      p.steps = amd64EnvironmentWithToken.steps
        ++ [Step.WithEnvVariable "CACHE_BUSTER" linuxAmd64.Now.String,
          Step.WithExec ["k3s", "list", "--region", "NYC1"]] ∧
      p.envVariable "CACHE_BUSTER" = some linuxAmd64.Now.String) ∧
    (∃ p : Container,
      ClusterShow.container linuxAmd64 (some sampleToken) "NYC1" "mycluster" = .ok p ∧
      p.steps = amd64EnvironmentWithToken.steps
        ++ [Step.WithEnvVariable "CACHE_BUSTER" linuxAmd64.Now.String,
          Step.WithExec ["k3s", "get", "mycluster", "--region", "NYC1"]] ∧
      p.envVariable "CACHE_BUSTER" = some linuxAmd64.Now.String) ∧
    (∃ p : Container,
      ClusterCreate.container linuxAmd64 (some sampleToken) "NYC1" "mycluster" "3"
        "g4s.kube.medium" "latest" = .ok p ∧
      p.steps = amd64EnvironmentWithToken.steps
        ++ [Step.WithEnvVariable "CACHE_BUSTER" linuxAmd64.Now.String,
          Step.WithExec ["k3s", "create", "mycluster", "--region", "NYC1", "--nodes", "3",
            "--size", "g4s.kube.medium", "--version", "latest", "--wait"]] ∧
      p.envVariable "CACHE_BUSTER" = some linuxAmd64.Now.String) ∧
    (∃ p : Container, Version.container linuxAmd64 = .ok p ∧
      p.envVariable "CACHE_BUSTER" = none ∧ Container.envOf p.steps = []) ∧
    (∀ later : Runtime, later.DefaultPlatform = linuxAmd64.DefaultPlatform →
      Version.container later = Version.container linuxAmd64) ∧
    (∀ (later : Runtime) (e : Container), civoContainer later (some sampleToken) = .ok e →
      (later.Now.sec ≠ linuxAmd64.Now.sec ∨ later.Now.nsec ≠ linuxAmd64.Now.nsec) →
      (60 : Int) ∣ linuxAmd64.Now.zoneOffset → (60 : Int) ∣ later.Now.zoneOffset →
      (∃ p q : Container, ClusterList.container linuxAmd64 (some sampleToken) "NYC1" = .ok p ∧
        ClusterList.container later (some sampleToken) "NYC1" = .ok q ∧
        p.envVariable "CACHE_BUSTER" ≠ q.envVariable "CACHE_BUSTER" ∧ p ≠ q) ∧
      (∃ p q : Container,
        ClusterShow.container linuxAmd64 (some sampleToken) "NYC1" "mycluster" = .ok p ∧
        ClusterShow.container later (some sampleToken) "NYC1" "mycluster" = .ok q ∧
        p.envVariable "CACHE_BUSTER" ≠ q.envVariable "CACHE_BUSTER" ∧ p ≠ q) ∧
      (∃ p q : Container,
        ClusterCreate.container linuxAmd64 (some sampleToken) "NYC1" "mycluster" "3"
          "g4s.kube.medium" "latest" = .ok p ∧
        ClusterCreate.container later (some sampleToken) "NYC1" "mycluster" "3"
          "g4s.kube.medium" "latest" = .ok q ∧
        p.envVariable "CACHE_BUSTER" ≠ q.envVariable "CACHE_BUSTER" ∧ p ≠ q))) :=
  ⟨rfl, cache_buster_marker linuxAmd64 (some sampleToken) amd64EnvironmentWithToken rfl
    "NYC1" "mycluster" "3" "g4s.kube.medium" "latest"⟩

/-- C8: whenever the environment is built, each of the four operations returns the very
pair the engine answers for its container: when the engine reports a failure the operation
returns that error (and the text that came with it), never a nil error; when the engine
reports success the operation returns the captured text unchanged with a nil error. -/
theorem operations_return_stdout (dag : Runtime) (apiToken : Option Secret) (c : Container)
    (hc : civoContainer dag apiToken = .ok c)
    (region name nodeCount nodeSize version : String) :
    (∃ p : Container, ClusterList.container dag apiToken region = .ok p ∧
      (∀ text err : String, dag.Stdout p = (text, some err) →
        ClusterList dag apiToken region = .ok (text, some err)) ∧
      (∀ text : String, dag.Stdout p = (text, none) →
        ClusterList dag apiToken region = .ok (text, none))) ∧
    (∃ p : Container, ClusterShow.container dag apiToken region name = .ok p ∧
      (∀ text err : String, dag.Stdout p = (text, some err) →
        ClusterShow dag apiToken region name = .ok (text, some err)) ∧
      (∀ text : String, dag.Stdout p = (text, none) →
        ClusterShow dag apiToken region name = .ok (text, none))) ∧
    (∃ p : Container,
      ClusterCreate.container dag apiToken region name nodeCount nodeSize version = .ok p ∧
      (∀ text err : String, dag.Stdout p = (text, some err) →
        ClusterCreate dag apiToken region name nodeCount nodeSize version
          = .ok (text, some err)) ∧
      (∀ text : String, dag.Stdout p = (text, none) →
        ClusterCreate dag apiToken region name nodeCount nodeSize version
          = .ok (text, none))) ∧
    (∃ p : Container, Version.container dag = .ok p ∧
      (∀ text err : String, dag.Stdout p = (text, some err) →
        Version dag = .ok (text, some err)) ∧
      (∀ text : String, dag.Stdout p = (text, none) → Version dag = .ok (text, none))) := by
  obtain ⟨os, arch, _, hall⟩ := civoContainer_ok_eq dag apiToken c hc
  have h1 := ClusterList_container_of_ok dag apiToken region c hc
  have h2 := ClusterShow_container_of_ok dag apiToken region name c hc
  have h3 := ClusterCreate_container_of_ok dag apiToken region name nodeCount nodeSize version
    c hc
  have h4 := Version_container_of_ok dag _ (hall none)
  refine ⟨⟨_, h1, ?_, ?_⟩, ⟨_, h2, ?_, ?_⟩, ⟨_, h3, ?_, ?_⟩, ⟨_, h4, ?_, ?_⟩⟩
  · intro text err h
    rw [ClusterList_of_container _ _ _ _ h1, h]
  · intro text h
    rw [ClusterList_of_container _ _ _ _ h1, h]
  · intro text err h
    rw [ClusterShow_of_container _ _ _ _ _ h2, h]
  · intro text h
    rw [ClusterShow_of_container _ _ _ _ _ h2, h]
  · intro text err h
    rw [ClusterCreate_of_container _ _ _ _ _ _ _ _ h3, h]
  · intro text h
    rw [ClusterCreate_of_container _ _ _ _ _ _ _ _ h3, h]
  · intro text err h
    rw [Version_of_container _ _ h4, h]
  · intro text h
    rw [Version_of_container _ _ h4, h]

/-- Witness for C8 on linux/amd64, with an engine under which the cluster commands fail and
the version command succeeds. -/
theorem operations_return_stdout_witness :
    civoContainer linuxAmd64 (some sampleToken) = .ok amd64EnvironmentWithToken ∧
    ((∃ p : Container, ClusterList.container linuxAmd64 (some sampleToken) "NYC1" = .ok p ∧
      (∀ text err : String, linuxAmd64.Stdout p = (text, some err) →
        ClusterList linuxAmd64 (some sampleToken) "NYC1" = .ok (text, some err)) ∧
      (∀ text : String, linuxAmd64.Stdout p = (text, none) →
        ClusterList linuxAmd64 (some sampleToken) "NYC1" = .ok (text, none))) ∧
    (∃ p : Container,
      ClusterShow.container linuxAmd64 (some sampleToken) "NYC1" "mycluster" = .ok p ∧
      (∀ text err : String, linuxAmd64.Stdout p = (text, some err) →
        ClusterShow linuxAmd64 (some sampleToken) "NYC1" "mycluster" = .ok (text, some err)) ∧
      (∀ text : String, linuxAmd64.Stdout p = (text, none) →
        ClusterShow linuxAmd64 (some sampleToken) "NYC1" "mycluster" = .ok (text, none))) ∧
    (∃ p : Container,
      ClusterCreate.container linuxAmd64 (some sampleToken) "NYC1" "mycluster" "3"
        "g4s.kube.medium" "latest" = .ok p ∧
      (∀ text err : String, linuxAmd64.Stdout p = (text, some err) →
        ClusterCreate linuxAmd64 (some sampleToken) "NYC1" "mycluster" "3"
          "g4s.kube.medium" "latest" = .ok (text, some err)) ∧
      (∀ text : String, linuxAmd64.Stdout p = (text, none) →
        ClusterCreate linuxAmd64 (some sampleToken) "NYC1" "mycluster" "3"
          "g4s.kube.medium" "latest" = .ok (text, none))) ∧
    (∃ p : Container, Version.container linuxAmd64 = .ok p ∧
      (∀ text err : String, linuxAmd64.Stdout p = (text, some err) →
        Version linuxAmd64 = .ok (text, some err)) ∧
      (∀ text : String, linuxAmd64.Stdout p = (text, none) →
        Version linuxAmd64 = .ok (text, none)))) :=
  ⟨rfl, operations_return_stdout linuxAmd64 (some sampleToken) amd64EnvironmentWithToken rfl
    "NYC1" "mycluster" "3" "g4s.kube.medium" "latest"⟩

/-- C9 fails on the code: a platform string without a separator is detected successfully,
splits into a single part, and civoContainer aborts on the index expression for the second
part. -/
theorem civoContainer_aborts_without_separator :
    unknownPlatform.DefaultPlatform = .ok "unknown" ∧
    Go.SplitN "unknown" "/" 2 = ["unknown"] ∧
    civoContainer unknownPlatform none = .error (Panic.indexOutOfRange 1 1) ∧
    civoContainer unknownPlatform (some sampleToken) = .error (Panic.indexOutOfRange 1 1) :=
  ⟨rfl, rfl, rfl, rfl⟩

/-- When civoContainer aborts: exactly when platform detection fails or the detected
platform string has no separator. -/
theorem civoContainer_abort_iff (dag : Runtime) (apiToken : Option Secret) :
    (∃ panic, civoContainer dag apiToken = .error panic) ↔
      ((∃ err, dag.DefaultPlatform = .error err) ∨
       (∃ platform, dag.DefaultPlatform = .ok platform ∧ '/' ∉ platform.data)) := by
  constructor
  · rintro ⟨panic, h⟩
    cases hp : dag.DefaultPlatform with
    | error err => exact Or.inl ⟨err, rfl⟩
    | ok platform =>
      refine Or.inr ⟨platform, rfl, fun hs => ?_⟩
      obtain ⟨os, arch, he, hno⟩ := Go.exists_split_of_mem platform hs
      subst he
      rw [civoContainer_of_split dag apiToken _ os arch hp
        (Go.SplitN_slash_append os arch hno)] at h
      cases h
  · rintro (⟨err, h⟩ | ⟨platform, h, hs⟩)
    · exact ⟨_, civoContainer_of_error dag apiToken err h⟩
    · exact ⟨_, civoContainer_of_no_separator dag apiToken platform h hs⟩

/-- C10: for every detected platform string containing the separator, with os the part
before the first separator and arch all that follows it, civoContainer builds the
environment from the base image alpine:latest by apk add curl, the download of the release
archive of version 1.0.75 for os and arch, its extraction, the move of the binary onto the
search path, chmod, and the entrypoint civo, in this order; a credential adds one secret
variable after them. -/
theorem civoContainer_setup_sequence (dag : Runtime) (platform : String)
    (hp : dag.DefaultPlatform = .ok platform) (hs : '/' ∈ platform.data) :
    ∃ os arch : String,
      platform = os ++ "/" ++ arch ∧ '/' ∉ os.data ∧
      (∀ os2 arch2 : String, platform = os2 ++ "/" ++ arch2 → '/' ∉ os2.data →
        os2 = os ∧ arch2 = arch) ∧
      civoContainer dag none = .ok ⟨[
        Step.From "alpine:latest",
        Step.WithExec ["apk", "add", "curl"],
        Step.WithExec ["curl", "-L", "-o", "/tmp/civo.tar.gz",
          "https://github.com/civo/cli/releases/download/v1.0.75/civo-1.0.75-" ++ os ++ "-"
            ++ arch ++ ".tar.gz"],
        Step.WithExec ["tar", "-xvf", "/tmp/civo.tar.gz", "-C", "/tmp"],
        Step.WithExec ["mv", "/tmp/civo", "/usr/local/bin/civo"],
        Step.WithExec ["chmod", "+x", "/usr/local/bin/civo"],
        Step.WithEntrypoint ["civo"]]⟩ ∧
      (∀ token : Secret, civoContainer dag (some token) = .ok ⟨[
        Step.From "alpine:latest",
        Step.WithExec ["apk", "add", "curl"],
        Step.WithExec ["curl", "-L", "-o", "/tmp/civo.tar.gz",
          "https://github.com/civo/cli/releases/download/v1.0.75/civo-1.0.75-" ++ os ++ "-"
            ++ arch ++ ".tar.gz"],
        Step.WithExec ["tar", "-xvf", "/tmp/civo.tar.gz", "-C", "/tmp"],
        Step.WithExec ["mv", "/tmp/civo", "/usr/local/bin/civo"],
        Step.WithExec ["chmod", "+x", "/usr/local/bin/civo"],
        Step.WithEntrypoint ["civo"],
        Step.WithSecretVariable "CIVO_TOKEN" token]⟩) := by
  obtain ⟨os, arch, he, hno⟩ := Go.exists_split_of_mem platform hs
  have hsplit := Go.SplitN_slash_append os arch hno
  rw [← he] at hsplit
  refine ⟨os, arch, he, hno, ?_, ?_, ?_⟩
  · intro os2 arch2 he2 hno2
    have h2 := Go.SplitN_slash_append os2 arch2 hno2
    rw [← he2, hsplit] at h2
    simp at h2
    exact ⟨h2.1.symm, h2.2.symm⟩
  · exact civoContainer_of_split dag none platform os arch hp hsplit
  · intro token
    exact civoContainer_of_split dag (some token) platform os arch hp hsplit

/-- Witness for C10 on a platform with a variant: the architecture part keeps the second
separator. -/
theorem civoContainer_setup_sequence_witness :
    linuxArm64v8.DefaultPlatform = .ok "linux/arm64/v8" ∧
    '/' ∈ ("linux/arm64/v8" : String).data ∧
    (∃ os arch : String,
      "linux/arm64/v8" = os ++ "/" ++ arch ∧ '/' ∉ os.data ∧
      (∀ os2 arch2 : String, "linux/arm64/v8" = os2 ++ "/" ++ arch2 → '/' ∉ os2.data →
        os2 = os ∧ arch2 = arch) ∧
      civoContainer linuxArm64v8 none = .ok ⟨[
        Step.From "alpine:latest",
        Step.WithExec ["apk", "add", "curl"],
        Step.WithExec ["curl", "-L", "-o", "/tmp/civo.tar.gz",
          "https://github.com/civo/cli/releases/download/v1.0.75/civo-1.0.75-" ++ os ++ "-"
            ++ arch ++ ".tar.gz"],
        Step.WithExec ["tar", "-xvf", "/tmp/civo.tar.gz", "-C", "/tmp"],
        Step.WithExec ["mv", "/tmp/civo", "/usr/local/bin/civo"],
        Step.WithExec ["chmod", "+x", "/usr/local/bin/civo"],
        Step.WithEntrypoint ["civo"]]⟩ ∧
      (∀ token : Secret, civoContainer linuxArm64v8 (some token) = .ok ⟨[
        Step.From "alpine:latest",
        Step.WithExec ["apk", "add", "curl"],
        Step.WithExec ["curl", "-L", "-o", "/tmp/civo.tar.gz",
          "https://github.com/civo/cli/releases/download/v1.0.75/civo-1.0.75-" ++ os ++ "-"
            ++ arch ++ ".tar.gz"],
        Step.WithExec ["tar", "-xvf", "/tmp/civo.tar.gz", "-C", "/tmp"],
        Step.WithExec ["mv", "/tmp/civo", "/usr/local/bin/civo"],
        Step.WithExec ["chmod", "+x", "/usr/local/bin/civo"],
        Step.WithEntrypoint ["civo"],
        Step.WithSecretVariable "CIVO_TOKEN" token]⟩)) :=
  ⟨rfl, by decide, civoContainer_setup_sequence linuxArm64v8 "linux/arm64/v8" rfl (by decide)⟩

end CivoCluster
